import Mathlib

/-!
# NFT business card: metadata publication and retrieval

A shallow embedding of `MintForm.js` (the publisher: `generateDefaultAvatar`,
`uploadToIPFS`, `uploadImageToIPFS`, `handleSubmit`) and of `NFTCard.js` (the
resolver: `loadMetadata` and the render expressions), followed by the
properties established about them.

JavaScript strings are modelled as their sequence of UTF-16 code units, which
is what `length`, indexing, `slice`, `split`, `startsWith` and `replace`
operate on.  Asynchronous calls are modelled by explicit oracles for the
collaborators (IPFS client, contract, HTTP gateway) and an explicit list of
the effects performed, in order.
-/

namespace NFTCard

/-! ## JavaScript strings -/

/-- A JavaScript string, as its sequence of UTF-16 code units. -/
abbrev JSString := List Nat

/-- The UTF-16 code units of one Unicode scalar value. -/
def utf16Char (c : Char) : List Nat :=
  if c.toNat < 0x10000 then [c.toNat]
  else [0xD800 + (c.toNat - 0x10000) / 0x400, 0xDC00 + (c.toNat - 0x10000) % 0x400]

/-- The JavaScript string denoted by a source literal. -/
def utf16 (s : String) : JSString :=
  (s.toList.map utf16Char).flatten

/-- Code units that `String.prototype.trim` strips: the ECMAScript WhiteSpace
and LineTerminator code points. -/
def isWhiteSpace (c : Nat) : Bool :=
  c = 0x09 || c = 0x0A || c = 0x0B || c = 0x0C || c = 0x0D || c = 0x20 ||
  c = 0xA0 || c = 0x1680 || (0x2000 ≤ c && c ≤ 0x200A) ||
  c = 0x2028 || c = 0x2029 || c = 0x202F || c = 0x205F || c = 0x3000 || c = 0xFEFF

/-- The method `String.prototype.trimStart`. -/
def trimStart (s : JSString) : JSString :=
  s.dropWhile isWhiteSpace

/-- The method `String.prototype.trimEnd`. -/
def trimEnd (s : JSString) : JSString :=
  (s.reverse.dropWhile isWhiteSpace).reverse

/-- The method `String.prototype.trim`. -/
def trim (s : JSString) : JSString :=
  trimEnd (trimStart s)

/-- JavaScript truthiness of a string: the empty string is falsy. -/
def truthy (s : JSString) : Bool :=
  !s.isEmpty

/-- The call `s.split(sep)` for a separator of one code unit. -/
def split (sep : Nat) : JSString → List JSString
  | [] => [[]]
  | c :: cs =>
    if c = sep then [] :: split sep cs
    else match split sep cs with
      | [] => [[c]]
      | t :: ts => (c :: t) :: ts

/-- The expression `n[0]`: the first code unit, `undefined` on the empty string. -/
def firstUnit (n : JSString) : Option Nat :=
  n.head?

/-- The call `xs.join('')` on an array of code units or `undefined`; an
`undefined` element contributes the empty string. -/
def joinEmpty (xs : List (Option Nat)) : JSString :=
  (xs.map fun x => match x with
    | none => []
    | some c => [c]).flatten

/-- The call `s.slice(0, n)`. -/
def slice0 (n : Nat) (s : JSString) : JSString :=
  s.take n

/-- The call `s.startsWith(pat)`. -/
def startsWith (pat s : JSString) : Bool :=
  pat.isPrefixOf s

/-- The call `s.replace(pat, rep)` with a string pattern and a replacement
without `$`: the first occurrence of `pat` is replaced. -/
def replace (pat rep : JSString) : JSString → JSString
  | [] => if pat = [] then rep else []
  | c :: cs =>
    if startsWith pat (c :: cs) then rep ++ (c :: cs).drop pat.length
    else c :: replace pat rep cs

/-- A reference `String.prototype.toUpperCase` on one code unit, exact on
Basic Latin and Latin-1 Supplement (U+0000..U+00FF) and on caseless code
units such as the CJK ideographs; other code units are left as they are. -/
def refUpperUnit (c : Nat) : List Nat :=
  if 0x61 ≤ c ∧ c ≤ 0x7A then [c - 0x20]
  else if c = 0xB5 then [0x39C]
  else if c = 0xDF then [0x53, 0x53]
  else if 0xE0 ≤ c ∧ c ≤ 0xFE ∧ c ≠ 0xF7 then [c - 0x20]
  else if c = 0xFF then [0x178]
  else [c]

/-- The reference uppercasing used to evaluate examples; the properties below
that quantify over names hold for every uppercasing function. -/
def refToUpperCase (s : JSString) : JSString :=
  (s.map refUpperUnit).flatten

/-! ## Errors -/

/-- A thrown JavaScript value, as far as the code inspects it. -/
inductive JSError where
  /-- An `Error` with the given `message`. -/
  | error (message : JSString)
  /-- The `InvalidCharacterError` DOMException thrown by `btoa`. -/
  | invalidCharacter
  deriving DecidableEq, Repr

/-! ## Base64 -/

/-- The base64 alphabet. -/
def b64Char (n : Nat) : Nat :=
  if n < 26 then 65 + n
  else if n < 52 then 97 + (n - 26)
  else if n < 62 then 48 + (n - 52)
  else if n = 62 then 43
  else 47

/-- Base64 encoding of a sequence of bytes, with `=` padding. -/
def base64 : List Nat → List Nat
  | a :: b :: c :: rest =>
    b64Char (a / 4) :: b64Char ((a % 4) * 16 + b / 16) ::
      b64Char ((b % 16) * 4 + c / 64) :: b64Char (c % 64) :: base64 rest
  | [a, b] => [b64Char (a / 4), b64Char ((a % 4) * 16 + b / 16), b64Char ((b % 16) * 4), 61]
  | [a] => [b64Char (a / 4), b64Char ((a % 4) * 16), 61, 61]
  | [] => []

/-- The global `btoa`: base64 of a string whose code units are all at most
0xFF, and an `InvalidCharacterError` otherwise. -/
def btoa (s : JSString) : Except JSError JSString :=
  if s.all (fun c => decide (c ≤ 0xFF)) then .ok (base64 s) else .error .invalidCharacter

/-! ## The publisher: `MintForm.js` -/

/-- The palette `colors` of `generateDefaultAvatar`. -/
def colors : List JSString :=
  [utf16 "#FF6B6B", utf16 "#4ECDC4", utf16 "#45B7D1", utf16 "#96CEB4", utf16 "#FFEAA7",
   utf16 "#DDA0DD"]

/-- The `initials` of `generateDefaultAvatar`:
`name.split(' ').map(n => n[0]).join('').slice(0, 2).toUpperCase()`. -/
def initials (toUpperCase : JSString → JSString) (name : JSString) : JSString :=
  toUpperCase (slice0 2 (joinEmpty ((split 0x20 name).map firstUnit)))

/-- The `bgColor` of `generateDefaultAvatar`: `colors[name.length % colors.length]`,
`undefined` when the index is outside the array. -/
def bgColor (name : JSString) : Option JSString :=
  colors.get? (name.length % colors.length)

/-- Interpolation of a possibly `undefined` value in a template literal. -/
def interpolate (v : Option JSString) : JSString :=
  match v with
  | some s => s
  | none => utf16 "undefined"

/-- The template literal `svg` of `generateDefaultAvatar`. -/
def svgText (bg : Option JSString) (ini : JSString) : JSString :=
  utf16 "\n      <svg width=\"200\" height=\"200\" xmlns=\"http://www.w3.org/2000/svg\">\n        <rect width=\"200\" height=\"200\" fill=\""
    ++ interpolate bg
    ++ utf16 "\"/>\n        <text x=\"100\" y=\"120\" font-family=\"Arial, sans-serif\" font-size=\"60\" \n              font-weight=\"bold\" text-anchor=\"middle\" fill=\"white\">\n          "
    ++ ini
    ++ utf16 "\n        </text>\n      </svg>\n    "

/-- The scheme and media type in front of the base64 payload. -/
def dataUriHead : JSString :=
  utf16 "data:image/svg+xml;base64,"

/-- The function `generateDefaultAvatar`. -/
def generateDefaultAvatar (toUpperCase : JSString → JSString) (name : JSString) :
    Except JSError JSString :=
  match btoa (svgText (bgColor name) (initials toUpperCase name)) with
  | .ok b => .ok (dataUriHead ++ b)
  | .error e => .error e

/-- The gateway base `https://ipfs.io/ipfs/` that both upload helpers and the
card put in front of a content hash. -/
def gatewayBase : JSString :=
  utf16 "https://ipfs.io/ipfs/"

/-- The content-addressing scheme `ipfs://`. -/
def ipfsScheme : JSString :=
  utf16 "ipfs://"

/-- A file chosen in the form, as its bytes. -/
structure File where
  bytes : List Nat
  deriving DecidableEq, Repr

/-- The state `formData` of `MintForm`. -/
structure FormData where
  name : JSString
  description : JSString
  avatar : Option File
  deriving DecidableEq, Repr

/-- The three state variables of `MintForm`. -/
structure FormState where
  formData : FormData
  minting : Bool
  previewUrl : Option JSString
  deriving DecidableEq, Repr

/-- One entry of `attributes`. -/
structure Attribute where
  trait_type : JSString
  value : JSString
  deriving DecidableEq, Repr

/-- The object `metadata` built by `handleSubmit`. -/
structure Metadata where
  name : JSString
  description : JSString
  image : JSString
  attributes : List Attribute
  external_url : JSString
  creator : JSString
  deriving DecidableEq, Repr

/-- What is handed to `ipfs.add`: the avatar file, or `JSON.stringify(data)`,
kept as the record it serialises. -/
inductive Payload where
  | file (f : File)
  | json (data : Metadata)
  deriving DecidableEq, Repr

/-- The receipt of a confirmed transaction: the `tokenId` argument of its
`CardMinted` event, `undefined` when there is none. -/
structure Receipt where
  tokenId : Option JSString

/-- The transaction returned by `contract.mintCard`, with the outcome of
`tx.wait()`. -/
structure Tx where
  wait : Except JSError Receipt

/-- The props of `MintForm` and the environment it runs in. -/
structure MintEnv where
  /-- The built-in `String.prototype.toUpperCase`. -/
  toUpperCase : JSString → JSString
  /-- The prop `account`. -/
  account : JSString
  /-- The value of `new Date().toISOString()`. -/
  now : JSString
  /-- The value of `window.location.origin`. -/
  origin : JSString
  /-- The call `ipfs.add`, returning `result.path` or rejecting. -/
  ipfsAdd : Payload → Except JSError JSString
  /-- The call `contract.mintCard(to, name, description, tokenURI)`. -/
  mintCard : JSString → JSString → JSString → JSString → Except JSError Tx
  /-- The `message` of the DOMException thrown by `btoa`. -/
  domMessage : JSString

/-- The calls that leave the component, in the order they are made; logging to
the console is left out. -/
inductive Effect where
  | alert (text : JSString)
  | ipfsAdd (p : Payload) (path : Option JSString)
  | mintCard (recipient name description tokenURI : JSString)
  | txWait
  | onMintSuccess
  deriving DecidableEq, Repr

/-- The function `uploadToIPFS`. -/
def uploadToIPFS (env : MintEnv) (data : Metadata) : Except JSError JSString × List Effect :=
  match env.ipfsAdd (.json data) with
  | .ok path => (.ok (gatewayBase ++ path), [.ipfsAdd (.json data) (some path)])
  | .error _ => (.error (.error (utf16 "IPFS上传失败，请稍后重试")), [.ipfsAdd (.json data) none])

/-- The function `uploadImageToIPFS`. -/
def uploadImageToIPFS (env : MintEnv) (file : File) : Except JSError JSString × List Effect :=
  match env.ipfsAdd (.file file) with
  | .ok path => (.ok (gatewayBase ++ path), [.ipfsAdd (.file file) (some path)])
  | .error _ => (.error (.error (utf16 "图片上传失败，请稍后重试")), [.ipfsAdd (.file file) none])

/-- The object literal `metadata` of `handleSubmit`, for the image locator of
step 1. -/
def buildMetadata (env : MintEnv) (formData : FormData) (imageUrl : JSString) : Metadata :=
  { name := formData.name ++ utf16 " 的名片"
    description := formData.description
    image := imageUrl
    attributes :=
      [ { trait_type := utf16 "创建者", value := formData.name },
        { trait_type := utf16 "创建时间", value := env.now },
        { trait_type := utf16 "类型", value := utf16 "NFT名片" } ]
    external_url := env.origin
    creator := env.account }

/-- Step 1 of `handleSubmit`: the image locator. -/
def imageStep (env : MintEnv) (formData : FormData) : Except JSError JSString × List Effect :=
  match formData.avatar with
  | some file => uploadImageToIPFS env file
  | none => (generateDefaultAvatar env.toUpperCase formData.name, [])

/-- The expression `error.message || '未知错误'`. -/
def messageOf (env : MintEnv) (e : JSError) : JSString :=
  let m := match e with
    | .error message => message
    | .invalidCharacter => env.domMessage
  if truthy m then m else utf16 "未知错误"

/-- The `try` block of `handleSubmit` after `setMinting(true)`: the value is
`ok` when the block runs to its end and the thrown error otherwise. -/
def tryBlock (env : MintEnv) (formData : FormData) : Except JSError Unit × List Effect :=
  match imageStep env formData with
  | (.error e, t1) => (.error e, t1)
  | (.ok imageUrl, t1) =>
    match uploadToIPFS env (buildMetadata env formData imageUrl) with
    | (.error e, t2) => (.error e, t1 ++ t2)
    | (.ok tokenURI, t2) =>
      let call := Effect.mintCard env.account formData.name formData.description tokenURI
      match env.mintCard env.account formData.name formData.description tokenURI with
      | .error e => (.error e, t1 ++ t2 ++ [call])
      | .ok tx =>
        let sent := Effect.alert (utf16 "交易已发送，等待确认中...")
        match tx.wait with
        | .error e => (.error e, t1 ++ t2 ++ [call, sent, .txWait])
        | .ok receipt =>
          (.ok (), t1 ++ t2 ++ [call, sent, .txWait,
            .alert (utf16 "NFT铸造成功! Token ID: " ++ interpolate receipt.tokenId),
            .onMintSuccess])

/-- The handler `handleSubmit`: the state of the form when it settles and the
effects performed. -/
def handleSubmit (env : MintEnv) (st : FormState) : FormState × List Effect :=
  if !truthy (trim st.formData.name) || !truthy (trim st.formData.description) then
    (st, [.alert (utf16 "请填写完整的名片信息")])
  else
    match tryBlock env st.formData with
    | (.ok (), t) =>
      ({ formData := { name := [], description := [], avatar := none }
         minting := false
         previewUrl := none }, t)
    | (.error e, t) =>
      ({ st with minting := false }, t ++ [.alert (utf16 "铸造失败: " ++ messageOf env e)])

/-! ## The resolver: `NFTCard.js` -/

/-- The prop `nft`: the on-chain record assembled by `App.js`. -/
structure NFT where
  tokenId : JSString
  name : JSString
  description : JSString
  creator : JSString
  owner : Option JSString
  /-- The date `createdAt`, in milliseconds since the epoch. -/
  createdAt : Option Nat
  tokenURI : JSString
  deriving DecidableEq, Repr

/-- A value of `response.json()`: any JSON value.  A number is kept by
whether it is zero and by the text JavaScript prints for it. -/
inductive Json where
  | null
  | bool (b : Bool)
  | num (isZero : Bool) (text : JSString)
  | str (s : JSString)
  | arr (items : List Json)
  | obj (fields : List (JSString × Json))

/-- What makes a render fail. -/
inductive RenderError where
  /-- A `TypeError` thrown while the component function runs. -/
  | typeError
  /-- The error React throws for an object used as a child. -/
  | invalidChild
  deriving DecidableEq, Repr

/-- The read `v.key` or `v?.key` on a value other than `null`, and `v?.key` on
`null`, for a key that no prototype defines: the last field of that name of an
object, and `undefined` otherwise. -/
def Json.prop (key : JSString) : Json → Option Json
  | .obj fields => (fields.reverse.find? fun f => f.1 == key).map fun f => f.2
  | _ => none

/-- JavaScript truthiness of a JSON value. -/
def Json.truthy : Json → Bool
  | .null => false
  | .bool b => b
  | .num isZero _ => !isZero
  | .str s => !s.isEmpty
  | .arr _ => true
  | .obj _ => true

mutual
/-- The text React renders for a value used as a child: strings and numbers
as they are, `null` and booleans as nothing, arrays item by item; an object
throws. -/
def childText : Json → Except RenderError JSString
  | .null => .ok []
  | .bool _ => .ok []
  | .num _ text => .ok text
  | .str s => .ok s
  | .arr items => childrenText items
  | .obj _ => .error .invalidChild
/-- The text of a list of children. -/
def childrenText : List Json → Except RenderError JSString
  | [] => .ok []
  | x :: xs =>
    match childText x with
    | .error e => .error e
    | .ok t =>
      match childrenText xs with
      | .error e => .error e
      | .ok ts => .ok (t ++ ts)
end

/-- The text of a possibly `undefined` child. -/
def childTextOpt (v : Option Json) : Except RenderError JSString :=
  match v with
  | none => .ok []
  | some x => childText x

/-- The response of `fetch`: `ok`, `status`, and the outcome of `json()`. -/
structure Response where
  ok : Bool
  status : Nat
  json : Except JSError Json

/-- The three state variables of `NFTCard`. -/
structure CardState where
  metadata : Json
  loading : Bool
  error : Option JSString

/-- The state of a card when it is mounted. -/
def CardState.initial : CardState :=
  { metadata := .null, loading := true, error := none }

/-- The rewrite of `nft.tokenURI` in `loadMetadata` (lines 19 to 25). -/
def normalizeLocator (url : JSString) : JSString :=
  if startsWith ipfsScheme url then gatewayBase ++ replace ipfsScheme [] url else url

/-- The function `loadMetadata`: the state when it settles and the URLs
fetched. -/
def loadMetadata (fetch : JSString → Except JSError Response) (nft : NFT) (st : CardState) :
    CardState × List JSString :=
  if truthy nft.tokenURI then
    let url := normalizeLocator nft.tokenURI
    let failed : CardState := { st with loading := false, error := some (utf16 "加载失败") }
    match fetch url with
    | .error _ => (failed, [url])
    | .ok response =>
      if !response.ok then (failed, [url])
      else match response.json with
        | .error _ => (failed, [url])
        | .ok data => ({ metadata := data, loading := false, error := none }, [url])
  else
    ({ st with loading := false, error := none }, [])

/-- The `src` of the card image (lines 117 to 119), for a string. -/
def imageSrc (image : JSString) : JSString :=
  if startsWith (utf16 "data:") image then image
  else replace ipfsScheme gatewayBase image

/-- The image shown by the card body (lines 115 to 119): `none` is the
`default-avatar` block; a truthy `metadata.image` that is not a string has no
`startsWith` and throws. -/
def renderedImage (metadata : Json) : Except RenderError (Option JSString) :=
  match metadata.prop (utf16 "image") with
  | some image =>
    if image.truthy then
      match image with
      | .str s => .ok (some (imageSrc s))
      | _ => .error .typeError
    else .ok none
  | none => .ok none

/-- The expression `a || b` for a possibly `undefined` value and a string. -/
def orElse (a : Option Json) (b : JSString) : Json :=
  match a with
  | some v => if v.truthy then v else .str b
  | none => .str b

/-- The title shown by the card body (line 142). -/
def cardTitle (nft : NFT) (metadata : Json) : Except RenderError JSString :=
  childText (orElse (metadata.prop (utf16 "name")) (nft.name ++ utf16 " 的名片"))

/-- The description shown by the card body (lines 143 to 145). -/
def cardDescription (nft : NFT) (metadata : Json) : Except RenderError JSString :=
  childText (orElse (metadata.prop (utf16 "description")) nft.description)

/-- The callback of `metadata.attributes.map`: the reads `attr.trait_type` and
`attr.value`, which throw on `null`. -/
def attributeCells : List Json → Except RenderError (List (Option Json × Option Json))
  | [] => .ok []
  | attr :: rest =>
    match attr with
    | .null => .error .typeError
    | _ =>
      match attributeCells rest with
      | .error e => .error e
      | .ok cells =>
        .ok ((attr.prop (utf16 "trait_type"), attr.prop (utf16 "value")) :: cells)

/-- The value of `metadata?.attributes && (...)` as the component function
builds it. -/
inductive AttributesElement where
  /-- A falsy `metadata?.attributes`, rendered as a child in place of the block. -/
  | value (v : Option Json)
  /-- The grid, with the two children of each cell. -/
  | grid (cells : List (Option Json × Option Json))

/-- The expression `metadata?.attributes && (...)` (lines 178 to 190): a
truthy `metadata.attributes` that is not an array has no `map` and throws. -/
def attributesElement (metadata : Json) : Except RenderError AttributesElement :=
  match metadata.prop (utf16 "attributes") with
  | none => .ok (.value none)
  | some v =>
    if v.truthy then
      match v with
      | .arr items =>
        match attributeCells items with
        | .error e => .error e
        | .ok cells => .ok (.grid cells)
      | _ => .error .typeError
    else .ok (.value (some v))

/-- The attributes block as rendered. -/
inductive AttributesView where
  /-- The text rendered in place of the block, empty when nothing shows. -/
  | text (t : JSString)
  /-- The grid: trait type and value of each attribute. -/
  | grid (rows : List (JSString × JSString))
  deriving DecidableEq, Repr

/-- The texts of the cells of the grid. -/
def gridRows : List (Option Json × Option Json) → Except RenderError (List (JSString × JSString))
  | [] => .ok []
  | cell :: rest =>
    match childTextOpt cell.1 with
    | .error e => .error e
    | .ok traitType =>
      match childTextOpt cell.2 with
      | .error e => .error e
      | .ok value =>
        match gridRows rest with
        | .error e => .error e
        | .ok rows => .ok ((traitType, value) :: rows)

/-- The attributes block once React has rendered its children. -/
def attributesView (element : AttributesElement) : Except RenderError AttributesView :=
  match element with
  | .value v =>
    match childTextOpt v with
    | .error e => .error e
    | .ok t => .ok (.text t)
  | .grid cells =>
    match gridRows cells with
    | .error e => .error e
    | .ok rows => .ok (.grid rows)

/-- The function `formatAddress`. -/
def formatAddress (address : Option JSString) : JSString :=
  match address with
  | some a => if truthy a then a.take 6 ++ utf16 "..." ++ a.drop (a.length - 4) else []
  | none => []

/-- What the component renders. -/
inductive View where
  | loading
  | error (tokenId errorText name description : JSString) (owner : Option JSString)
      (createdAt : Option Nat)
  | card (tokenId : JSString) (image : Option JSString) (title description creatorName : JSString)
      (owner : Option JSString) (createdAt : Option Nat) (attributes : AttributesView)
  deriving DecidableEq, Repr

/-- The value of `showOwner && nft.owner`. -/
def ownerShown (showOwner : Bool) (nft : NFT) : Option JSString :=
  match nft.owner with
  | some o => if showOwner && truthy o then some o else none
  | none => none

/-- The card body (lines 101 to 210): the component function first builds the
image and the attributes block, which may throw a `TypeError`, and React then
renders the children in document order, which throws on an object. -/
def renderCard (nft : NFT) (showOwner : Bool) (metadata : Json) : Except RenderError View :=
  match renderedImage metadata with
  | .error e => .error e
  | .ok image =>
    match attributesElement metadata with
    | .error e => .error e
    | .ok element =>
      match cardTitle nft metadata with
      | .error e => .error e
      | .ok title =>
        match cardDescription nft metadata with
        | .error e => .error e
        | .ok description =>
          match attributesView element with
          | .error e => .error e
          | .ok attributes =>
            .ok (.card nft.tokenId image title description nft.name
              (((ownerShown showOwner nft).filter fun o => decide (o ≠ nft.creator)).map
                fun o => formatAddress (some o))
              nft.createdAt attributes)

/-- The render of `NFTCard`: the view, or the error thrown; dates are kept as
they are handed to `formatDate`. -/
def render (nft : NFT) (showOwner : Bool) (st : CardState) : Except RenderError View :=
  if st.loading then .ok .loading
  else match st.error with
    | some e =>
      if truthy e then
        .ok (.error nft.tokenId e nft.name nft.description
          ((ownerShown showOwner nft).map fun o => formatAddress (some o)) nft.createdAt)
      else renderCard nft showOwner st.metadata
    | none => renderCard nft showOwner st.metadata

/-! ## Predicates on effects and example environments -/

/-- An effect that reaches the network: an IPFS upload, a contract call or the
wait for its confirmation. -/
def Effect.isNetworkCall : Effect → Bool
  | .ipfsAdd _ _ => true
  | .mintCard _ _ _ _ => true
  | .txWait => true
  | _ => false

/-- An invocation of `contract.mintCard`. -/
def Effect.isMint : Effect → Bool
  | .mintCard _ _ _ _ => true
  | _ => false

/-- An upload that was rejected by the store. -/
def Effect.isFailedUpload : Effect → Bool
  | .ipfsAdd _ none => true
  | _ => false

/-- An environment whose store accepts every upload under the hash `Qm1` and
whose contract confirms every mint as token `7`. -/
def exampleEnv : MintEnv :=
  { toUpperCase := refToUpperCase
    account := utf16 "0xA11CE"
    now := utf16 "2024-01-01T00:00:00.000Z"
    origin := utf16 "https://cards.example"
    ipfsAdd := fun _ => .ok (utf16 "Qm1")
    mintCard := fun _ _ _ _ => .ok { wait := .ok { tokenId := some (utf16 "7") } }
    domMessage := utf16 "Invalid character" }

/-- The environment `exampleEnv` with a store that rejects every upload. -/
def offlineEnv : MintEnv :=
  { exampleEnv with ipfsAdd := fun _ => .error (.error (utf16 "ECONNREFUSED")) }

/-- The form filled in with the name `Ada L` and the description `Engineer`,
without an avatar. -/
def adaForm : FormState :=
  { formData := { name := utf16 "Ada L", description := utf16 "Engineer", avatar := none }
    minting := false
    previewUrl := none }

/-- The non-empty tokens of `name.split(' ')`. -/
def spaceTokens (name : JSString) : List JSString :=
  (split 0x20 name).filter fun t => !t.isEmpty

/-- Splitting at every white-space code unit, as the specification words it
("whitespace-split tokens"); this is not what the code does. -/
def whitespaceSplit : JSString → List JSString
  | [] => [[]]
  | c :: cs =>
    if isWhiteSpace c then [] :: whitespaceSplit cs
    else match whitespaceSplit cs with
      | [] => [[c]]
      | t :: ts => (c :: t) :: ts

/-- The white-space separated tokens of the specification. -/
def whitespaceTokens (name : JSString) : List JSString :=
  (whitespaceSplit name).filter fun t => !t.isEmpty

/-- The initials as the specification words them: the uppercased first
characters of the first two white-space separated tokens. -/
def specInitials (toUpperCase : JSString → JSString) (name : JSString) : JSString :=
  toUpperCase (((whitespaceTokens name).take 2).filterMap List.head?)

/-- A form filled in with a Chinese name, without an avatar. -/
def liMingForm : FormState :=
  { formData := { name := utf16 "李明", description := utf16 "工程师", avatar := none }
    minting := false
    previewUrl := none }

/-- The form `adaForm` with an avatar file chosen. -/
def avatarForm : FormState :=
  { adaForm with formData := { adaForm.formData with avatar := some { bytes := [137, 80, 78, 71] } } }

/-- The on-chain record of a card of `Ada L` with the given `tokenURI`. -/
def adaNft (tokenURI : JSString) : NFT :=
  { tokenId := utf16 "0"
    name := utf16 "Ada L"
    description := utf16 "Engineer"
    creator := utf16 "0xA11CE"
    owner := none
    createdAt := some 1704067200000
    tokenURI := tokenURI }

/-- Some metadata a gateway may serve. -/
def sampleMetadata : Json :=
  .obj [ (utf16 "name", .str (utf16 "Ada L 的名片")),
         (utf16 "description", .str (utf16 "Engineer")) ]

/-- A gateway that serves `sampleMetadata` at every URL. -/
def servingFetch : JSString → Except JSError Response :=
  fun _ => .ok { ok := true, status := 200, json := .ok sampleMetadata }

/-- A gateway that cannot be reached: every `fetch` rejects. -/
def rejectingFetch : JSString → Except JSError Response :=
  fun _ => .error (.error (utf16 "Failed to fetch"))

/-- A gateway that answers every URL with status 404. -/
def notFoundFetch : JSString → Except JSError Response :=
  fun _ => .ok { ok := false, status := 404, json := .error (.error (utf16 "Unexpected token")) }

/-- A gateway that answers every URL with status 200 and a body that is not
JSON. -/
def garbledFetch : JSString → Except JSError Response :=
  fun _ => .ok { ok := true, status := 200, json := .error (.error (utf16 "Unexpected token")) }

/-- The outcome of a fetch is a failure: the fetch rejected, the status was
not a success, or the body did not parse. -/
def loadFails (r : Except JSError Response) : Bool :=
  match r with
  | .error _ => true
  | .ok response => !response.ok || !response.json.isOk

/-- The outcome of a fetch is the parsed value `data`. -/
def loadYields (r : Except JSError Response) (data : Json) : Prop :=
  ∃ response, r = .ok response ∧ response.ok = true ∧ response.json = .ok data

/-- The settling of `loadMetadata` as claimed for every `tokenURI`, where the
outcome of the fetch is that of the gateway at the normalised locator:
`loading` ends false, the error is set exactly when the outcome is a failure,
and a parsed value is stored with no error. -/
def SettlesAsClaimed (fetch : JSString → Except JSError Response) (nft : NFT) (st : CardState) :
    Prop :=
  (loadMetadata fetch nft st).1.loading = false ∧
  ((loadMetadata fetch nft st).1.error ≠ none ↔
    loadFails (fetch (normalizeLocator nft.tokenURI)) = true) ∧
  ∀ data, loadYields (fetch (normalizeLocator nft.tokenURI)) data →
    (loadMetadata fetch nft st).1.metadata = data ∧ (loadMetadata fetch nft st).1.error = none

/-- The JSON of one attribute. -/
def attributeJson (a : Attribute) : Json :=
  .obj [ (utf16 "trait_type", .str a.trait_type), (utf16 "value", .str a.value) ]

/-- The value of `JSON.parse(JSON.stringify(data))`, for a parser that inverts
serialisation. -/
def parseStringify (data : Metadata) : Json :=
  .obj [ (utf16 "name", .str data.name),
         (utf16 "description", .str data.description),
         (utf16 "image", .str data.image),
         (utf16 "attributes", .arr (data.attributes.map attributeJson)),
         (utf16 "external_url", .str data.external_url),
         (utf16 "creator", .str data.creator) ]

/-- A reachable store: the gateway serves, at the locator of the path `Qm1`,
the metadata `handleSubmit` uploads for `avatarForm` in `exampleEnv`, and
rejects every other URL. -/
def reachableFetch : JSString → Except JSError Response :=
  fun url =>
    if url = utf16 "https://ipfs.io/ipfs/Qm1" then
      .ok { ok := true
            status := 200
            json := .ok (parseStringify
              (buildMetadata exampleEnv avatarForm.formData (utf16 "https://ipfs.io/ipfs/Qm1"))) }
    else .error (.error (utf16 "Failed to fetch"))

/-- Metadata that disagrees with the on-chain record of `adaNft` on every field
it carries, the creator attribute included. -/
def richMetadata : Json :=
  .obj [ (utf16 "name", .str (utf16 "Countess of Lovelace")),
         (utf16 "description", .str (utf16 "Analyst")),
         (utf16 "attributes",
           .arr [ .obj [ (utf16 "trait_type", .str (utf16 "创建者")),
                         (utf16 "value", .str (utf16 "Mallory")) ] ]) ]

/-- A gateway that serves `richMetadata` at every URL. -/
def richFetch : JSString → Except JSError Response :=
  fun _ => .ok { ok := true, status := 200, json := .ok richMetadata }

/-- Metadata whose `image` is the number 5. -/
def illTypedMetadata : Json :=
  .obj [ (utf16 "name", .str (utf16 "X")), (utf16 "image", .num false (utf16 "5")) ]

/-- A gateway that serves `illTypedMetadata` at every URL. -/
def illTypedFetch : JSString → Except JSError Response :=
  fun _ => .ok { ok := true, status := 200, json := .ok illTypedMetadata }

/-- The record of `adaNft` at `ipfs://Qm1`, owned by another account. -/
def ownedNft : NFT :=
  { adaNft (utf16 "ipfs://Qm1") with owner := some (utf16 "0xB0B0000000000000000000000000000000001234") }

/-! ## Validation (C1) -/

theorem trim_eq_nil_of_blank (s : JSString) (h : ∀ c ∈ s, isWhiteSpace c = true) :
    trim s = [] := by
  have h1 : trimStart s = [] := by
    unfold trimStart
    exact List.dropWhile_eq_nil_iff.mpr h
  simp [trim, h1, trimEnd]

/-- C1: when the name or the description is empty or made of white space only,
`handleSubmit` leaves the whole form state (the form data included) as it was
and its only effect is the alert asking to fill in the form; in particular it
makes no IPFS upload, no `contract.mintCard` call and no other network call. -/
theorem handleSubmit_rejects_blank (env : MintEnv) (st : FormState)
    (h : (∀ c ∈ st.formData.name, isWhiteSpace c = true) ∨
         (∀ c ∈ st.formData.description, isWhiteSpace c = true)) :
    handleSubmit env st = (st, [Effect.alert (utf16 "请填写完整的名片信息")]) ∧
    (handleSubmit env st).1.formData = st.formData ∧
    ∀ e ∈ (handleSubmit env st).2, e.isNetworkCall = false := by
  have key : handleSubmit env st = (st, [Effect.alert (utf16 "请填写完整的名片信息")]) := by
    unfold handleSubmit
    rcases h with h | h
    · simp [trim_eq_nil_of_blank _ h, truthy]
    · simp [trim_eq_nil_of_blank _ h, truthy]
  refine ⟨key, ?_, ?_⟩
  · rw [key]
  · rw [key]
    intro e he
    simp at he
    subst he
    rfl

/-- C1 at a form whose name is three spaces, on a store that would accept the
upload. -/
theorem handleSubmit_rejects_blank_witness :
    ((∀ c ∈ utf16 "   ", isWhiteSpace c = true) ∨
      (∀ c ∈ utf16 "Engineer", isWhiteSpace c = true)) ∧
    handleSubmit exampleEnv { adaForm with formData := { adaForm.formData with name := utf16 "   " } }
      = ({ adaForm with formData := { adaForm.formData with name := utf16 "   " } },
         [Effect.alert (utf16 "请填写完整的名片信息")]) :=
  ⟨Or.inl (by decide),
   (handleSubmit_rejects_blank exampleEnv
      { adaForm with formData := { adaForm.formData with name := utf16 "   " } }
      (Or.inl (by decide))).1⟩

/-! ## Fail-fast publication (C2) -/

theorem trim_valid_branch (env : MintEnv) (st : FormState)
    (hn : trim st.formData.name ≠ []) (hd : trim st.formData.description ≠ []) :
    handleSubmit env st =
      match tryBlock env st.formData with
      | (.ok (), t) =>
        ({ formData := { name := [], description := [], avatar := none }
           minting := false
           previewUrl := none }, t)
      | (.error e, t) =>
        ({ st with minting := false },
          t ++ [Effect.alert (utf16 "铸造失败: " ++ messageOf env e)]) := by
  unfold handleSubmit
  have h1 : truthy (trim st.formData.name) = true := by
    cases h : trim st.formData.name with
    | nil => exact absurd h hn
    | cons a l => rfl
  have h2 : truthy (trim st.formData.description) = true := by
    cases h : trim st.formData.description with
    | nil => exact absurd h hd
    | cons a l => rfl
  simp [h1, h2]

/-- The shape of the effects of the `try` block: either nothing is minted, or
the mint call comes right after the accepted metadata upload whose locator it
carries, and no upload was rejected. -/
theorem tryBlock_shape (env : MintEnv) (fd : FormData) :
    (∀ e ∈ (tryBlock env fd).2, e.isMint = false) ∨
    (∃ pre post data path,
      (tryBlock env fd).2 =
        pre ++ Effect.ipfsAdd (.json data) (some path) ::
          Effect.mintCard env.account fd.name fd.description (gatewayBase ++ path) :: post ∧
      env.ipfsAdd (.json data) = .ok path ∧
      (∀ e ∈ pre, e.isMint = false ∧ e.isFailedUpload = false) ∧
      (∀ e ∈ post, e.isMint = false ∧ e.isFailedUpload = false)) := by
  unfold tryBlock
  cases hi : imageStep env fd with
  | mk r1 t1 =>
    have ht1 : ∀ e ∈ t1, e.isMint = false ∧ (r1.isOk = true → e.isFailedUpload = false) := by
      unfold imageStep at hi
      cases ha : fd.avatar with
      | none =>
        rw [ha] at hi
        simp only [Prod.mk.injEq] at hi
        intro e he
        rw [← hi.2] at he
        simp at he
      | some f =>
        rw [ha] at hi
        unfold uploadImageToIPFS at hi
        cases hf : env.ipfsAdd (.file f) with
        | ok path =>
          simp only [hf, Prod.mk.injEq] at hi
          intro e he
          rw [← hi.2] at he
          simp at he
          subst he
          simp [Effect.isMint, Effect.isFailedUpload]
        | error err =>
          simp only [hf, Prod.mk.injEq] at hi
          intro e he
          rw [← hi.2] at he
          simp at he
          subst he
          rw [← hi.1]
          simp [Effect.isMint, Except.isOk, Except.toBool]
    cases r1 with
    | error e =>
      left
      intro x hx
      exact (ht1 x hx).1
    | ok imageUrl =>
      simp only
      unfold uploadToIPFS
      cases hu : env.ipfsAdd (.json (buildMetadata env fd imageUrl)) with
      | error err =>
        left
        intro x hx
        simp at hx
        rcases hx with hx | hx
        · exact (ht1 x hx).1
        · subst hx
          rfl
      | ok path =>
        right
        refine ⟨t1, ?_, buildMetadata env fd imageUrl, path, ?_, hu, ?_, ?_⟩
        · exact match env.mintCard env.account fd.name fd.description (gatewayBase ++ path) with
            | .error _ => []
            | .ok tx =>
              match tx.wait with
              | .error _ => [Effect.alert (utf16 "交易已发送，等待确认中..."), Effect.txWait]
              | .ok receipt =>
                [Effect.alert (utf16 "交易已发送，等待确认中..."), Effect.txWait,
                  Effect.alert (utf16 "NFT铸造成功! Token ID: " ++ interpolate receipt.tokenId),
                  Effect.onMintSuccess]
        · simp only
          cases hm : env.mintCard env.account fd.name fd.description (gatewayBase ++ path) with
          | error err => simp
          | ok tx =>
            cases hw : tx.wait with
            | error err => simp [hw]
            | ok receipt => simp [hw]
        · intro x hx
          exact ⟨(ht1 x hx).1, (ht1 x hx).2 rfl⟩
        · intro x hx
          cases hm : env.mintCard env.account fd.name fd.description (gatewayBase ++ path) with
          | error err =>
            rw [hm] at hx
            simp at hx
          | ok tx =>
            rw [hm] at hx
            cases hw : tx.wait with
            | error err =>
              simp [hw] at hx
              rcases hx with hx | hx <;> subst hx <;> simp [Effect.isMint, Effect.isFailedUpload]
            | ok receipt =>
              simp [hw] at hx
              rcases hx with hx | hx | hx | hx <;> subst hx <;>
                simp [Effect.isMint, Effect.isFailedUpload]

theorem handleSubmit_valid_shape (env : MintEnv) (st : FormState)
    (hn : trim st.formData.name ≠ []) (hd : trim st.formData.description ≠ []) :
    (handleSubmit env st).1.minting = false ∧
    ∃ tail, (handleSubmit env st).2 = (tryBlock env st.formData).2 ++ tail ∧
      ∀ e ∈ tail, e.isMint = false ∧ e.isFailedUpload = false := by
  rw [trim_valid_branch env st hn hd]
  cases h : tryBlock env st.formData with
  | mk r t =>
    cases r with
    | ok u => exact ⟨rfl, [], by simp, by simp⟩
    | error e =>
      refine ⟨rfl, [Effect.alert (utf16 "铸造失败: " ++ messageOf env e)], rfl, ?_⟩
      intro x hx
      simp at hx
      subst hx
      simp [Effect.isMint, Effect.isFailedUpload]

theorem tryBlock_image_rejected (env : MintEnv) (fd : FormData) (f : File)
    (ha : fd.avatar = some f) (hf : (env.ipfsAdd (.file f)).isOk = false) :
    (tryBlock env fd).2 = [Effect.ipfsAdd (.file f) none] := by
  unfold tryBlock imageStep uploadImageToIPFS
  rw [ha]
  cases h : env.ipfsAdd (.file f) with
  | ok path => simp [h, Except.isOk, Except.toBool] at hf
  | error e => simp [h]

theorem tryBlock_metadata_rejected (env : MintEnv) (fd : FormData) (imageUrl : JSString)
    (hi : (imageStep env fd).1 = .ok imageUrl)
    (hf : (env.ipfsAdd (.json (buildMetadata env fd imageUrl))).isOk = false) :
    (tryBlock env fd).2 =
      (imageStep env fd).2 ++ [Effect.ipfsAdd (.json (buildMetadata env fd imageUrl)) none] := by
  unfold tryBlock uploadToIPFS
  cases h1 : imageStep env fd with
  | mk r t =>
    rw [h1] at hi
    simp only at hi
    subst hi
    cases h : env.ipfsAdd (.json (buildMetadata env fd imageUrl)) with
    | ok path => simp [h, Except.isOk, Except.toBool] at hf
    | error e => simp [h]

/-- C2: for a form with a non-blank name and description, whatever the store
and the contract do: `handleSubmit` ends with `minting` false; every call of
`contract.mintCard` comes right after an upload of the metadata that the store
accepted, and its `tokenURI` is the locator `uploadToIPFS` returns for that
upload (the gateway base followed by the returned path); when an upload was
rejected, be it the image (an avatar was chosen and the store rejects it) or the
metadata, `mintCard` is not called at all. -/
theorem mintCard_only_after_metadata_upload (env : MintEnv) (st : FormState)
    (hn : trim st.formData.name ≠ []) (hd : trim st.formData.description ≠ []) :
    (handleSubmit env st).1.minting = false ∧
    (∀ a n d uri, Effect.mintCard a n d uri ∈ (handleSubmit env st).2 →
      ∃ pre post data path,
        (handleSubmit env st).2 =
          pre ++ Effect.ipfsAdd (.json data) (some path) :: Effect.mintCard a n d uri :: post ∧
        uploadToIPFS env data = (.ok uri, [Effect.ipfsAdd (.json data) (some path)]) ∧
        (∀ e ∈ pre, e.isMint = false) ∧ (∀ e ∈ post, e.isMint = false)) ∧
    (∀ p, Effect.ipfsAdd p none ∈ (handleSubmit env st).2 →
      ∀ e ∈ (handleSubmit env st).2, e.isMint = false) ∧
    (∀ f, st.formData.avatar = some f → (env.ipfsAdd (.file f)).isOk = false →
      ∀ e ∈ (handleSubmit env st).2, e.isMint = false) ∧
    (∀ imageUrl, (imageStep env st.formData).1 = .ok imageUrl →
      (env.ipfsAdd (.json (buildMetadata env st.formData imageUrl))).isOk = false →
      ∀ e ∈ (handleSubmit env st).2, e.isMint = false) := by
  obtain ⟨hmint, tail, hT, htail⟩ := handleSubmit_valid_shape env st hn hd
  have hfail : ∀ p, Effect.ipfsAdd p none ∈ (handleSubmit env st).2 →
      ∀ e ∈ (handleSubmit env st).2, e.isMint = false := by
    intro p hp
    rcases tryBlock_shape env st.formData with hA | ⟨pre, post, data, path, hB, _, hpre, hpost⟩
    · intro e he
      rw [hT] at he
      rcases List.mem_append.mp he with he | he
      · exact hA e he
      · exact (htail e he).1
    · exfalso
      rw [hT, hB] at hp
      simp only [List.mem_append, List.mem_cons] at hp
      rcases hp with (hp | hp | hp | hp) | hp
      · simpa [Effect.isFailedUpload] using (hpre _ hp).2
      · simp at hp
      · simp at hp
      · simpa [Effect.isFailedUpload] using (hpost _ hp).2
      · simpa [Effect.isFailedUpload] using (htail _ hp).2
  refine ⟨hmint, ?_, hfail, ?_, ?_⟩
  · intro a n d uri hm
    rcases tryBlock_shape env st.formData with hA | ⟨pre, post, data, path, hB, hok, hpre, hpost⟩
    · exfalso
      rw [hT] at hm
      rcases List.mem_append.mp hm with hm | hm
      · simpa [Effect.isMint] using hA _ hm
      · simpa [Effect.isMint] using (htail _ hm).1
    · have heq : Effect.mintCard a n d uri =
          Effect.mintCard env.account st.formData.name st.formData.description
            (gatewayBase ++ path) := by
        rw [hT, hB] at hm
        simp only [List.mem_append, List.mem_cons] at hm
        rcases hm with (hm | hm | hm | hm) | hm
        · simpa [Effect.isMint] using (hpre _ hm).1
        · simp at hm
        · exact hm
        · simpa [Effect.isMint] using (hpost _ hm).1
        · simpa [Effect.isMint] using (htail _ hm).1
      have huri : uri = gatewayBase ++ path := by
        injection heq
      refine ⟨pre, post ++ tail, data, path, ?_, ?_, fun e he => (hpre e he).1, ?_⟩
      · rw [hT, hB, heq]
        simp
      · unfold uploadToIPFS
        rw [hok, huri]
      · intro e he
        rcases List.mem_append.mp he with he | he
        · exact (hpost e he).1
        · exact (htail e he).1
  · intro f ha hf
    apply hfail (.file f)
    rw [hT, tryBlock_image_rejected env st.formData f ha hf]
    simp
  · intro imageUrl hi hf
    apply hfail (.json (buildMetadata env st.formData imageUrl))
    rw [hT, tryBlock_metadata_rejected env st.formData imageUrl hi hf]
    simp

/-- C2 at a form with an avatar, on a store that rejects every upload: the
image upload fails, nothing is minted and `minting` ends false. -/
theorem mintCard_only_after_metadata_upload_witness :
    trim avatarForm.formData.name ≠ [] ∧ trim avatarForm.formData.description ≠ [] ∧
    (handleSubmit offlineEnv avatarForm).1.minting = false ∧
    ∀ e ∈ (handleSubmit offlineEnv avatarForm).2, e.isMint = false :=
  ⟨by decide, by decide,
   (mintCard_only_after_metadata_upload offlineEnv avatarForm (by decide) (by decide)).1,
   (mintCard_only_after_metadata_upload offlineEnv avatarForm (by decide) (by decide)).2.2.2.1
     { bytes := [137, 80, 78, 71] } rfl rfl⟩

/-! ## The default avatar (C3) -/

theorem bgColor_latin1 (name : JSString) :
    (interpolate (bgColor name)).all (fun c => decide (c ≤ 0xFF)) = true := by
  unfold bgColor
  have h : name.length % colors.length < 6 := Nat.mod_lt _ (by decide)
  generalize name.length % colors.length = i at h
  interval_cases i <;> decide

theorem svgText_latin1 (bg : Option JSString) (ini : JSString)
    (hbg : (interpolate bg).all (fun c => decide (c ≤ 0xFF)) = true) :
    (svgText bg ini).all (fun c => decide (c ≤ 0xFF)) =
      ini.all (fun c => decide (c ≤ 0xFF)) := by
  unfold svgText
  rw [List.all_append, List.all_append, List.all_append, List.all_append, hbg]
  have h1 : (utf16 "\n      <svg width=\"200\" height=\"200\" xmlns=\"http://www.w3.org/2000/svg\">\n        <rect width=\"200\" height=\"200\" fill=\"").all
      (fun c => decide (c ≤ 0xFF)) = true := by decide!
  have h2 : (utf16 "\"/>\n        <text x=\"100\" y=\"120\" font-family=\"Arial, sans-serif\" font-size=\"60\" \n              font-weight=\"bold\" text-anchor=\"middle\" fill=\"white\">\n          ").all
      (fun c => decide (c ≤ 0xFF)) = true := by decide!
  have h3 : (utf16 "\n        </text>\n      </svg>\n    ").all
      (fun c => decide (c ≤ 0xFF)) = true := by decide!
  rw [h1, h2, h3]
  simp

/-- What `generateDefaultAvatar` returns, for every name and every uppercasing:
the data URI when all code units of the initials are at most 0xFF, and the
`InvalidCharacterError` of `btoa` otherwise. -/
theorem generateDefaultAvatar_eq (toUpperCase : JSString → JSString) (name : JSString) :
    generateDefaultAvatar toUpperCase name =
      if (initials toUpperCase name).all (fun c => decide (c ≤ 0xFF)) then
        .ok (dataUriHead ++ base64 (svgText (bgColor name) (initials toUpperCase name)))
      else .error .invalidCharacter := by
  unfold generateDefaultAvatar btoa
  rw [svgText_latin1 _ _ (bgColor_latin1 name)]
  by_cases h : (initials toUpperCase name).all (fun c => decide (c ≤ 0xFF)) = true <;> simp [h]

/-- The default avatar of `Ada L`: the initials `AL` on the sixth colour. -/
theorem generateDefaultAvatar_ada :
    generateDefaultAvatar refToUpperCase (utf16 "Ada L") =
      .ok (dataUriHead ++ base64 (svgText (some (utf16 "#DDA0DD")) (utf16 "AL"))) := by
  have hi : initials refToUpperCase (utf16 "Ada L") = utf16 "AL" := by decide
  have hb : bgColor (utf16 "Ada L") = some (utf16 "#DDA0DD") := by decide
  rw [generateDefaultAvatar_eq, hi, hb, if_pos (by decide)]

/-- C3, at the name 李明 (two code units, no avatar): `generateDefaultAvatar`
does not return a data URI but throws the `InvalidCharacterError` of `btoa`,
since the initials 李明 are not Latin-1; `handleSubmit` then uploads nothing,
mints nothing and only alerts the failure. -/
theorem generateDefaultAvatar_throws_on_cjk :
    initials refToUpperCase (utf16 "李明") = [0x674E] ∧
    generateDefaultAvatar refToUpperCase (utf16 "李明") = .error .invalidCharacter ∧
    (handleSubmit exampleEnv liMingForm).2 =
      [Effect.alert (utf16 "铸造失败: Invalid character")] := by
  have hi : initials refToUpperCase (utf16 "李明") = [0x674E] := by decide
  have hg : generateDefaultAvatar refToUpperCase (utf16 "李明") = .error .invalidCharacter := by
    rw [generateDefaultAvatar_eq, hi]
    rfl
  refine ⟨hi, hg, ?_⟩
  rw [trim_valid_branch exampleEnv liMingForm (by decide) (by decide)]
  have ht : tryBlock exampleEnv liMingForm.formData = (.error .invalidCharacter, []) := by
    unfold tryBlock imageStep
    simp only [liMingForm, exampleEnv]
    rw [hg]
  rw [ht]
  decide

/-! ## Initials (C4) -/

theorem take_joinEmpty (toks : List JSString) (n : Nat) :
    (joinEmpty (toks.map firstUnit)).take n =
      ((toks.filter fun t => !t.isEmpty).take n).filterMap List.head? := by
  induction toks generalizing n with
  | nil => simp [joinEmpty]
  | cons t ts ih =>
    cases t with
    | nil =>
      have := ih n
      simpa [joinEmpty, firstUnit] using this
    | cons c t' =>
      cases n with
      | zero => simp
      | succ n =>
        have := ih n
        simpa [joinEmpty, firstUnit] using this

theorem whitespaceSplit_eq_split (name : JSString)
    (h : ∀ c ∈ name, isWhiteSpace c = true → c = 0x20) :
    whitespaceSplit name = split 0x20 name := by
  induction name with
  | nil => rfl
  | cons c cs ih =>
    have ih1 := ih (fun x hx => h x (List.mem_cons_of_mem _ hx))
    unfold whitespaceSplit split
    by_cases hc : c = 0x20
    · subst hc
      simp [ih1, isWhiteSpace]
    · have hw : isWhiteSpace c = false := by
        cases hw : isWhiteSpace c with
        | false => rfl
        | true => exact absurd (h c (List.mem_cons_self _ _) hw) hc
      simp [hc, hw, ih1]

/-- C4 as stated fails: with a tab between the two words the code finds one
token and the initials are `A`, where the white-space separated tokens give
`AL`; and for `ß ß` the initials are `SSSS`, four characters. -/
theorem initials_counterexample :
    initials refToUpperCase (utf16 "Ada\tL") = utf16 "A" ∧
    specInitials refToUpperCase (utf16 "Ada\tL") = utf16 "AL" ∧
    initials refToUpperCase (utf16 "Ada\tL") ≠ specInitials refToUpperCase (utf16 "Ada\tL") ∧
    initials refToUpperCase (utf16 "ß ß") = utf16 "SSSS" ∧
    ¬ (initials refToUpperCase (utf16 "ß ß")).length ≤ 2 := by
  decide

/-- C4, amended: for every name and every uppercasing function, the initials
are the uppercasing of the first code units of the first two non-empty tokens
of the name as separated by the space U+0020 alone; the string that is
uppercased has at most two code units; when the only white space of the name
is U+0020 these are the initials of the specification; and `Ada L` gives
`AL`. -/
theorem initials_spec (toUpperCase : JSString → JSString) (name : JSString) :
    initials toUpperCase name
      = toUpperCase (((spaceTokens name).take 2).filterMap List.head?) ∧
    (((spaceTokens name).take 2).filterMap List.head?).length ≤ 2 ∧
    ((∀ c ∈ name, isWhiteSpace c = true → c = 0x20) →
      initials toUpperCase name = specInitials toUpperCase name) ∧
    initials refToUpperCase (utf16 "Ada L") = utf16 "AL" := by
  have h1 : initials toUpperCase name
      = toUpperCase (((spaceTokens name).take 2).filterMap List.head?) := by
    unfold initials slice0 spaceTokens
    rw [take_joinEmpty]
  refine ⟨h1, ?_, ?_, by decide⟩
  · calc (((spaceTokens name).take 2).filterMap List.head?).length
        ≤ ((spaceTokens name).take 2).length := List.length_filterMap_le _ _
      _ ≤ 2 := List.length_take_le _ _
  · intro h
    rw [h1]
    unfold specInitials whitespaceTokens spaceTokens
    rw [whitespaceSplit_eq_split name h]

/-- C4, amended, at the name `Ada L`, whose only white space is a space. -/
theorem initials_spec_witness :
    (∀ c ∈ utf16 "Ada L", isWhiteSpace c = true → c = 0x20) ∧
    initials refToUpperCase (utf16 "Ada L") = specInitials refToUpperCase (utf16 "Ada L") ∧
    specInitials refToUpperCase (utf16 "Ada L") = utf16 "AL" :=
  ⟨by decide,
   (initials_spec refToUpperCase (utf16 "Ada L")).2.2.1 (by decide),
   by decide⟩

/-! ## Locator normalisation (C8) -/

theorem ipfsScheme_eq : ipfsScheme = [105, 112, 102, 115, 58, 47, 47] := by
  decide

theorem gatewayBase_eq :
    gatewayBase = 104 :: [116, 116, 112, 115, 58, 47, 47, 105, 112, 102, 115, 46, 105, 111, 47,
      105, 112, 102, 115, 47] := by
  decide

theorem replace_of_startsWith (pat rep s : JSString) (hp : pat ≠ [])
    (h : startsWith pat s = true) : replace pat rep s = rep ++ s.drop pat.length := by
  cases s with
  | nil =>
    cases pat with
    | nil => exact absurd rfl hp
    | cons a l => simp [startsWith, List.isPrefixOf] at h
  | cons c cs =>
    unfold replace
    simp [h]

theorem not_startsWith_gateway (x : JSString) : startsWith ipfsScheme (gatewayBase ++ x) = false := by
  rw [ipfsScheme_eq, gatewayBase_eq]
  simp [startsWith, List.isPrefixOf]

theorem normalizeLocator_eq (l : JSString) :
    normalizeLocator l = if startsWith ipfsScheme l then gatewayBase ++ l.drop 7 else l := by
  unfold normalizeLocator
  by_cases h : startsWith ipfsScheme l = true
  · rw [if_pos h, if_pos h, replace_of_startsWith _ _ _ (by decide) h]
    simp [ipfsScheme_eq]
  · rw [if_neg h, if_neg h]

theorem not_startsWith_normalizeLocator (l : JSString) :
    startsWith ipfsScheme (normalizeLocator l) = false := by
  rw [normalizeLocator_eq]
  by_cases h : startsWith ipfsScheme l = true
  · rw [if_pos h]
    exact not_startsWith_gateway _
  · rw [if_neg h]
    simpa using h

/-- The rewrite of a locator, on every string: the gateway base
`https://ipfs.io/ipfs/` followed by the locator without its first seven code
units when the locator starts with `ipfs://`, and the locator itself otherwise;
the result never starts with `ipfs://`; rewriting again changes nothing; a
locator returned by `uploadToIPFS` is left as it is; and `loadMetadata` fetches
no other URL. -/
theorem normalizeLocator_spec (l : JSString) :
    normalizeLocator l = (if startsWith ipfsScheme l then gatewayBase ++ l.drop 7 else l) ∧
    startsWith ipfsScheme (normalizeLocator l) = false ∧
    normalizeLocator (normalizeLocator l) = normalizeLocator l ∧
    (∀ env data, (uploadToIPFS env data).1 = .ok l → normalizeLocator l = l) ∧
    (∀ fetch nft st, nft.tokenURI = l → ∀ u ∈ (loadMetadata fetch nft st).2, u = normalizeLocator l) := by
  refine ⟨normalizeLocator_eq l, not_startsWith_normalizeLocator l, ?_, ?_, ?_⟩
  · have h := not_startsWith_normalizeLocator l
    conv_lhs => rw [normalizeLocator_eq (normalizeLocator l)]
    simp [h]
  · intro env data h
    unfold uploadToIPFS at h
    cases hu : env.ipfsAdd (.json data) with
    | ok path =>
      rw [hu] at h
      simp only [Except.ok.injEq] at h
      rw [normalizeLocator_eq, ← h, not_startsWith_gateway]
      simp
    | error e =>
      rw [hu] at h
      simp at h
  · intro fetch nft st hl u hu
    subst hl
    unfold loadMetadata at hu
    by_cases ht : truthy nft.tokenURI = true
    · rw [if_pos ht] at hu
      simp only at hu
      cases hf : fetch (normalizeLocator nft.tokenURI) with
      | error e =>
        rw [hf] at hu
        simpa using hu
      | ok response =>
        rw [hf] at hu
        simp only at hu
        by_cases hok : response.ok = true
        · cases hj : response.json with
          | error e =>
            simp [hok, hj] at hu
            exact hu
          | ok data =>
            simp [hok, hj] at hu
            exact hu
        · simp [hok] at hu
          exact hu
    · rw [if_neg ht] at hu
      simp at hu

/-- The rewrite at the locator `ipfs://Qm1` and at the locator the publisher
returns for the path `Qm1`. -/
theorem normalizeLocator_spec_witness :
    normalizeLocator (utf16 "ipfs://Qm1") = utf16 "https://ipfs.io/ipfs/Qm1" ∧
    (uploadToIPFS exampleEnv (buildMetadata exampleEnv adaForm.formData [])).1
      = .ok (utf16 "https://ipfs.io/ipfs/Qm1") ∧
    normalizeLocator (utf16 "https://ipfs.io/ipfs/Qm1") = utf16 "https://ipfs.io/ipfs/Qm1" :=
  ⟨by decide, rfl,
   (normalizeLocator_spec (utf16 "https://ipfs.io/ipfs/Qm1")).2.2.2.1 exampleEnv
     (buildMetadata exampleEnv adaForm.formData []) rfl⟩

theorem loadMetadata_trace (fetch : JSString → Except JSError Response) (nft : NFT)
    (st : CardState) (h : nft.tokenURI ≠ []) :
    (loadMetadata fetch nft st).2 = [normalizeLocator nft.tokenURI] := by
  have ht : truthy nft.tokenURI = true := by
    cases hu : nft.tokenURI with
    | nil => exact absurd hu h
    | cons a l => rfl
  unfold loadMetadata
  rw [if_pos ht]
  simp only
  cases hf : fetch (normalizeLocator nft.tokenURI) with
  | error e => rfl
  | ok response =>
    simp only
    by_cases hok : response.ok = true
    · cases hj : response.json with
      | error e => simp [hok]
      | ok data => simp [hok]
    · simp [hok]

theorem loadMetadata_congr (fetch other : JSString → Except JSError Response) (nft : NFT)
    (st : CardState)
    (h : other (normalizeLocator nft.tokenURI) = fetch (normalizeLocator nft.tokenURI)) :
    loadMetadata other nft st = loadMetadata fetch nft st := by
  unfold loadMetadata
  simp only [h]

/-- C8 as stated fails at the empty locator: it does not start with `ipfs://`,
so the URL fetched should be the locator unchanged, but `loadMetadata` fetches
nothing at all. -/
theorem fetched_url_counterexample :
    startsWith ipfsScheme (adaNft []).tokenURI = false ∧
    (loadMetadata servingFetch (adaNft []) CardState.initial).2 = [] ∧
    (loadMetadata servingFetch (adaNft []) CardState.initial).2
      ≠ [normalizeLocator (adaNft []).tokenURI] := by
  decide

/-- C8, amended: for every non-empty locator `loadMetadata` makes exactly one
fetch, of the rewritten locator, and what it does depends on the gateway at
that URL only; the rewritten locator is the gateway base
`https://ipfs.io/ipfs/` followed by the locator without its leading `ipfs://`
when it starts with `ipfs://`, and the locator unchanged otherwise, as for
every locator `uploadToIPFS` returns; it never starts with `ipfs://` and
rewriting it again changes nothing.  For the empty locator nothing is
fetched. -/
theorem loadMetadata_fetches_normalized (fetch : JSString → Except JSError Response) (nft : NFT)
    (st : CardState) :
    (nft.tokenURI ≠ [] →
      (loadMetadata fetch nft st).2 = [normalizeLocator nft.tokenURI] ∧
      (∀ other : JSString → Except JSError Response,
        other (normalizeLocator nft.tokenURI) = fetch (normalizeLocator nft.tokenURI) →
        loadMetadata other nft st = loadMetadata fetch nft st)) ∧
    (nft.tokenURI = [] → (loadMetadata fetch nft st).2 = []) ∧
    normalizeLocator nft.tokenURI =
      (if startsWith ipfsScheme nft.tokenURI then gatewayBase ++ nft.tokenURI.drop 7
       else nft.tokenURI) ∧
    startsWith ipfsScheme (normalizeLocator nft.tokenURI) = false ∧
    normalizeLocator (normalizeLocator nft.tokenURI) = normalizeLocator nft.tokenURI ∧
    (∀ env data, (uploadToIPFS env data).1 = .ok nft.tokenURI →
      (loadMetadata fetch nft st).2 = [nft.tokenURI]) := by
  obtain ⟨h1, h2, h3, h4, _⟩ := normalizeLocator_spec nft.tokenURI
  refine ⟨?_, ?_, h1, h2, h3, ?_⟩
  · intro h
    exact ⟨loadMetadata_trace fetch nft st h,
      fun other ho => loadMetadata_congr fetch other nft st ho⟩
  · intro h
    unfold loadMetadata
    rw [h]
    rfl
  · intro env data hu
    have hne : nft.tokenURI ≠ [] := by
      unfold uploadToIPFS at hu
      cases hp : env.ipfsAdd (.json data) with
      | ok path =>
        rw [hp] at hu
        simp only [Except.ok.injEq] at hu
        rw [← hu, gatewayBase_eq]
        simp
      | error e =>
        rw [hp] at hu
        simp at hu
    rw [loadMetadata_trace fetch nft st hne, h4 env data hu]

/-- C8, amended, at the locator `ipfs://Qm1`: the one URL fetched is
`https://ipfs.io/ipfs/Qm1`. -/
theorem loadMetadata_fetches_normalized_witness :
    (adaNft (utf16 "ipfs://Qm1")).tokenURI ≠ [] ∧
    (loadMetadata servingFetch (adaNft (utf16 "ipfs://Qm1")) CardState.initial).2
      = [utf16 "https://ipfs.io/ipfs/Qm1"] :=
  ⟨by decide,
   ((loadMetadata_fetches_normalized servingFetch (adaNft (utf16 "ipfs://Qm1"))
      CardState.initial).1 (by decide)).1.trans (by decide)⟩

/-! ## Resolution and degradation (C5, C6) -/

theorem truthy_of_ne_nil (s : JSString) (h : s ≠ []) : truthy s = true := by
  cases s with
  | nil => exact absurd rfl h
  | cons a l => rfl

theorem loadMetadata_of_fails (fetch : JSString → Except JSError Response) (nft : NFT)
    (st : CardState) (h : nft.tokenURI ≠ [])
    (hf : loadFails (fetch (normalizeLocator nft.tokenURI)) = true) :
    (loadMetadata fetch nft st).1 =
      { st with loading := false, error := some (utf16 "加载失败") } := by
  unfold loadMetadata
  rw [if_pos (truthy_of_ne_nil _ h)]
  simp only
  cases hr : fetch (normalizeLocator nft.tokenURI) with
  | error e => rfl
  | ok response =>
    rw [hr] at hf
    simp only [loadFails] at hf
    simp only
    by_cases hok : response.ok = true
    · cases hj : response.json with
      | error e => simp [hok]
      | ok data => simp [hok, hj, Except.isOk, Except.toBool] at hf
    · simp [hok]

theorem loadMetadata_of_yields (fetch : JSString → Except JSError Response) (nft : NFT)
    (st : CardState) (h : nft.tokenURI ≠ []) (data : Json)
    (hy : loadYields (fetch (normalizeLocator nft.tokenURI)) data) :
    (loadMetadata fetch nft st).1 = { metadata := data, loading := false, error := none } := by
  obtain ⟨response, hr, hok, hj⟩ := hy
  unfold loadMetadata
  rw [if_pos (truthy_of_ne_nil _ h)]
  simp only
  rw [hr]
  simp [hok, hj]

theorem loadFails_or_yields (r : Except JSError Response) :
    loadFails r = true ∨ ∃ data, loadYields r data := by
  cases r with
  | error e => exact Or.inl rfl
  | ok response =>
    by_cases hok : response.ok = true
    · cases hj : response.json with
      | error e =>
        left
        simp [loadFails, hj, Except.isOk, Except.toBool]
      | ok data => exact Or.inr ⟨data, response, rfl, hok, hj⟩
    · left
      simp [loadFails, hok]

theorem not_yields_of_fails (r : Except JSError Response) (data : Json)
    (hf : loadFails r = true) : ¬ loadYields r data := by
  rintro ⟨response, hr, hok, hj⟩
  subst hr
  simp [loadFails, hok, hj, Except.isOk, Except.toBool] at hf

/-- C5 as stated fails at the empty `tokenURI`, where no fetch is made: with a
gateway that rejects every fetch no error is set, and with a gateway that
serves metadata nothing is stored. -/
theorem loadMetadata_empty_locator_counterexample :
    ¬ SettlesAsClaimed rejectingFetch (adaNft []) CardState.initial ∧
    ¬ SettlesAsClaimed servingFetch (adaNft []) CardState.initial ∧
    (loadMetadata rejectingFetch (adaNft []) CardState.initial).1.error = none ∧
    (loadMetadata servingFetch (adaNft []) CardState.initial).1.metadata = .null ∧
    (loadMetadata servingFetch (adaNft []) CardState.initial).2 = [] := by
  refine ⟨?_, ?_, rfl, rfl, rfl⟩
  · intro h
    have h2 := h.2.1.mpr rfl
    exact h2 rfl
  · intro h
    have h3 : Json.null = sampleMetadata := (h.2.2 sampleMetadata ⟨_, rfl, rfl, rfl⟩).1
    exact Json.noConfusion h3

/-- C5, amended: for every non-empty `tokenURI`, every gateway and every
previous state, `loadMetadata` settles with `loading` false, the error set
exactly when the fetch rejected, the status was not a success or the body did
not parse, and otherwise the parsed value stored with no error; in the failed
case the error is `加载失败`, the metadata is left as it was and the card
renders the error view, which shows the on-chain name and description.  For the
empty `tokenURI` nothing is fetched, no error is set and the metadata is left
as it was. -/
theorem loadMetadata_settles (fetch : JSString → Except JSError Response) (nft : NFT)
    (st : CardState) :
    (nft.tokenURI ≠ [] →
      SettlesAsClaimed fetch nft st ∧
      (loadFails (fetch (normalizeLocator nft.tokenURI)) = true →
        (loadMetadata fetch nft st).1.error = some (utf16 "加载失败") ∧
        (loadMetadata fetch nft st).1.metadata = st.metadata ∧
        ∀ showOwner, render nft showOwner (loadMetadata fetch nft st).1 =
          .ok (View.error nft.tokenId (utf16 "加载失败") nft.name nft.description
            ((ownerShown showOwner nft).map fun o => formatAddress (some o)) nft.createdAt))) ∧
    (nft.tokenURI = [] →
      loadMetadata fetch nft st = ({ st with loading := false, error := none }, [])) := by
  constructor
  · intro h
    refine ⟨⟨?_, ?_, ?_⟩, ?_⟩
    · rcases loadFails_or_yields (fetch (normalizeLocator nft.tokenURI)) with hf | ⟨data, hy⟩
      · rw [loadMetadata_of_fails fetch nft st h hf]
      · rw [loadMetadata_of_yields fetch nft st h data hy]
    · constructor
      · intro he
        rcases loadFails_or_yields (fetch (normalizeLocator nft.tokenURI)) with hf | ⟨data, hy⟩
        · exact hf
        · rw [loadMetadata_of_yields fetch nft st h data hy] at he
          exact absurd rfl he
      · intro hf
        rw [loadMetadata_of_fails fetch nft st h hf]
        simp
    · intro data hy
      rw [loadMetadata_of_yields fetch nft st h data hy]
      exact ⟨rfl, rfl⟩
    · intro hf
      rw [loadMetadata_of_fails fetch nft st h hf]
      refine ⟨rfl, rfl, ?_⟩
      intro showOwner
      have ht : truthy (utf16 "加载失败") = true := by decide
      simp [render, ht]
  · intro h
    unfold loadMetadata
    rw [h]
    rfl

/-- C5, amended, at the locator `ipfs://Qm1` behind a gateway that answers 404. -/
theorem loadMetadata_settles_witness :
    (adaNft (utf16 "ipfs://Qm1")).tokenURI ≠ [] ∧
    SettlesAsClaimed notFoundFetch (adaNft (utf16 "ipfs://Qm1")) CardState.initial ∧
    render (adaNft (utf16 "ipfs://Qm1")) false
        (loadMetadata notFoundFetch (adaNft (utf16 "ipfs://Qm1")) CardState.initial).1 =
      .ok (View.error (utf16 "0") (utf16 "加载失败") (utf16 "Ada L") (utf16 "Engineer") none
        (some 1704067200000)) :=
  ⟨by decide,
   ((loadMetadata_settles notFoundFetch (adaNft (utf16 "ipfs://Qm1")) CardState.initial).1
      (by decide)).1,
   (((loadMetadata_settles notFoundFetch (adaNft (utf16 "ipfs://Qm1")) CardState.initial).1
      (by decide)).2 rfl).2.2 false⟩

/-- C6 as stated fails: at the locator `ipfs://Qm1` the reason recorded after a
404 answer and the reason recorded after a body that does not parse are the
same string `加载失败`, which is neither `fetch failed` nor `parse failed`. -/
theorem degraded_reason_counterexample :
    (loadMetadata notFoundFetch (adaNft (utf16 "ipfs://Qm1")) CardState.initial).1.error
      = some (utf16 "加载失败") ∧
    (loadMetadata garbledFetch (adaNft (utf16 "ipfs://Qm1")) CardState.initial).1.error
      = some (utf16 "加载失败") ∧
    ¬ ((loadMetadata notFoundFetch (adaNft (utf16 "ipfs://Qm1")) CardState.initial).1.error ≠
       (loadMetadata garbledFetch (adaNft (utf16 "ipfs://Qm1")) CardState.initial).1.error) ∧
    (loadMetadata notFoundFetch (adaNft (utf16 "ipfs://Qm1")) CardState.initial).1.error
      ≠ some (utf16 "fetch failed") ∧
    (loadMetadata garbledFetch (adaNft (utf16 "ipfs://Qm1")) CardState.initial).1.error
      ≠ some (utf16 "parse failed") := by
  decide

/-- C6, amended: for every non-empty locator, whichever step fails (the fetch
rejects, the status is not a success, or the body does not parse), the reason
recorded is the same generic string `加载失败`; it does not tell the failing
step. -/
theorem degraded_reason_generic (fetch : JSString → Except JSError Response) (nft : NFT)
    (st : CardState) (h : nft.tokenURI ≠ []) :
    (∀ e, fetch (normalizeLocator nft.tokenURI) = .error e →
      (loadMetadata fetch nft st).1.error = some (utf16 "加载失败")) ∧
    (∀ response, fetch (normalizeLocator nft.tokenURI) = .ok response → response.ok = false →
      (loadMetadata fetch nft st).1.error = some (utf16 "加载失败")) ∧
    (∀ response e, fetch (normalizeLocator nft.tokenURI) = .ok response → response.ok = true →
      response.json = .error e →
      (loadMetadata fetch nft st).1.error = some (utf16 "加载失败")) := by
  refine ⟨?_, ?_, ?_⟩
  · intro e he
    rw [loadMetadata_of_fails fetch nft st h (by rw [he]; rfl)]
  · intro response hr hok
    rw [loadMetadata_of_fails fetch nft st h (by rw [hr]; simp [loadFails, hok])]
  · intro response e hr hok hj
    rw [loadMetadata_of_fails fetch nft st h
      (by rw [hr]; simp [loadFails, hj, Except.isOk, Except.toBool])]

/-- C6, amended, at the locator `ipfs://Qm1` behind a gateway whose answer does
not parse. -/
theorem degraded_reason_generic_witness :
    (adaNft (utf16 "ipfs://Qm1")).tokenURI ≠ [] ∧
    (loadMetadata garbledFetch (adaNft (utf16 "ipfs://Qm1")) CardState.initial).1.error
      = some (utf16 "加载失败") :=
  ⟨by decide,
   (degraded_reason_generic garbledFetch (adaNft (utf16 "ipfs://Qm1")) CardState.initial
      (by decide)).2.2 _ _ rfl rfl rfl⟩

/-! ## The image locator (C7) -/

/-- Where the two rewrites agree: on an image locator that starts with
`ipfs://` the `src` rendered is the normalisation of `loadMetadata`. -/
theorem imageSrc_of_scheme (image : JSString) (h : startsWith ipfsScheme image = true) :
    imageSrc image = normalizeLocator image := by
  have hd : startsWith (utf16 "data:") image = false := by
    cases image with
    | nil => simp [ipfsScheme_eq, startsWith, List.isPrefixOf] at h
    | cons c cs =>
      have hc : c = 105 := by
        rw [ipfsScheme_eq] at h
        simp [startsWith, List.isPrefixOf] at h
        exact h.1.symm
      subst hc
      have hdata : utf16 "data:" = [100, 97, 116, 97, 58] := by decide
      rw [hdata]
      simp [startsWith, List.isPrefixOf]
  unfold imageSrc normalizeLocator
  rw [hd, h]
  simp only [Bool.false_eq_true, if_false, if_true]
  rw [replace_of_startsWith _ _ _ (by decide) h, replace_of_startsWith _ _ _ (by decide) h]
  simp

/-- C7, at the image locator `https://example.com/a?src=ipfs://Qm1`, which does
not start with `data:`: the normalisation of `loadMetadata` leaves it as it is,
since it does not start with `ipfs://`, but the `src` rendered has the inner
`ipfs://` replaced by the gateway base. -/
theorem imageSrc_rewrites_inner_scheme :
    startsWith (utf16 "data:") (utf16 "https://example.com/a?src=ipfs://Qm1") = false ∧
    normalizeLocator (utf16 "https://example.com/a?src=ipfs://Qm1")
      = utf16 "https://example.com/a?src=ipfs://Qm1" ∧
    imageSrc (utf16 "https://example.com/a?src=ipfs://Qm1")
      = utf16 "https://example.com/a?src=https://ipfs.io/ipfs/Qm1" ∧
    renderedImage (.obj [ (utf16 "name", .str (utf16 "Ada L 的名片")),
        (utf16 "image", .str (utf16 "https://example.com/a?src=ipfs://Qm1")) ])
      = .ok (some (utf16 "https://example.com/a?src=https://ipfs.io/ipfs/Qm1")) ∧
    imageSrc (utf16 "https://example.com/a?src=ipfs://Qm1")
      ≠ normalizeLocator (utf16 "https://example.com/a?src=ipfs://Qm1") := by
  refine ⟨by decide, by decide, by decide, ?_, by decide⟩
  rfl

/-! ## The metadata record (C9) -/

theorem imageStep_trace (env : MintEnv) (fd : FormData) (data : Metadata)
    (r : Option JSString) : Effect.ipfsAdd (.json data) r ∉ (imageStep env fd).2 := by
  unfold imageStep uploadImageToIPFS
  cases fd.avatar with
  | none => simp
  | some f =>
    cases hf : env.ipfsAdd (.file f) with
    | ok path => simp [hf]
    | error e => simp [hf]

theorem tryBlock_json_upload (env : MintEnv) (fd : FormData) (data : Metadata)
    (r : Option JSString) (h : Effect.ipfsAdd (.json data) r ∈ (tryBlock env fd).2) :
    ∃ imageUrl, (imageStep env fd).1 = .ok imageUrl ∧ data = buildMetadata env fd imageUrl ∧
      r = (env.ipfsAdd (.json data)).toOption := by
  have h0 := imageStep_trace env fd data r
  unfold tryBlock uploadToIPFS at h
  cases hi : imageStep env fd with
  | mk r1 t1 =>
    rw [hi] at h h0
    simp only at h0
    cases r1 with
    | error e => exact absurd h h0
    | ok imageUrl =>
      refine ⟨imageUrl, rfl, ?_⟩
      simp only at h
      cases hu : env.ipfsAdd (.json (buildMetadata env fd imageUrl)) with
      | error e =>
        rw [hu] at h
        simp [h0] at h
        obtain ⟨h1, h2⟩ := h
        subst h1
        rw [hu]
        exact ⟨rfl, h2⟩
      | ok path =>
        rw [hu] at h
        simp only at h
        cases hm : env.mintCard env.account fd.name fd.description (gatewayBase ++ path) with
        | error e =>
          rw [hm] at h
          simp [h0] at h
          obtain ⟨h1, h2⟩ := h
          subst h1
          rw [hu]
          exact ⟨rfl, h2⟩
        | ok tx =>
          rw [hm] at h
          simp only at h
          cases hw : tx.wait with
          | error e =>
            rw [hw] at h
            simp [h0] at h
            obtain ⟨h1, h2⟩ := h
            subst h1
            rw [hu]
            exact ⟨rfl, h2⟩
          | ok receipt =>
            rw [hw] at h
            simp [h0] at h
            obtain ⟨h1, h2⟩ := h
            subst h1
            rw [hu]
            exact ⟨rfl, h2⟩

theorem handleSubmit_json_upload (env : MintEnv) (st : FormState)
    (hn : trim st.formData.name ≠ []) (hd : trim st.formData.description ≠ [])
    (data : Metadata) (r : Option JSString)
    (h : Effect.ipfsAdd (.json data) r ∈ (handleSubmit env st).2) :
    ∃ imageUrl, (imageStep env st.formData).1 = .ok imageUrl ∧
      data = buildMetadata env st.formData imageUrl ∧
      r = (env.ipfsAdd (.json data)).toOption := by
  obtain ⟨_, tail, hT, htail⟩ := handleSubmit_valid_shape env st hn hd
  rw [hT] at h
  rcases List.mem_append.mp h with h | h
  · exact tryBlock_json_upload env st.formData data r h
  · exfalso
    have hE : (handleSubmit env st).2 = (tryBlock env st.formData).2 ++ tail := hT
    rw [trim_valid_branch env st hn hd] at hE
    cases ht : tryBlock env st.formData with
    | mk r1 t =>
      rw [ht] at hE
      cases r1 with
      | ok u =>
        simp at hE
        rw [hE] at h
        simp at h
      | error e =>
        simp at hE
        rw [← hE] at h
        simp at h

/-- C9 as stated fails on the literals: for `Ada L` the name of the record is
`Ada L 的名片`, not `Ada L's card`, and the creator entry has the trait type
`创建者`, so that the record holds no attribute of trait type `creator`. -/
theorem buildMetadata_counterexample :
    (buildMetadata exampleEnv adaForm.formData []).name = utf16 "Ada L 的名片" ∧
    (buildMetadata exampleEnv adaForm.formData []).name ≠ utf16 "Ada L's card" ∧
    (buildMetadata exampleEnv adaForm.formData []).attributes.head?
      = some { trait_type := utf16 "创建者", value := utf16 "Ada L" } ∧
    ({ trait_type := utf16 "creator", value := utf16 "Ada L" } : Attribute)
      ∉ (buildMetadata exampleEnv adaForm.formData []).attributes := by
  decide

/-- C9, amended: for every form with a non-blank name and description, every
metadata record that `handleSubmit` uploads is built from the image locator of
step 1 and has as name the display name followed by ` 的名片`, as description
the bio unchanged, as image that locator, as creator the account, as external
URL the origin, and exactly three attributes in this order: `创建者` with the
display name, `创建时间` with the timestamp, `类型` with `NFT名片`. -/
theorem handleSubmit_metadata (env : MintEnv) (st : FormState)
    (hn : trim st.formData.name ≠ []) (hd : trim st.formData.description ≠ [])
    (data : Metadata) (r : Option JSString)
    (h : Effect.ipfsAdd (.json data) r ∈ (handleSubmit env st).2) :
    (∃ imageUrl, (imageStep env st.formData).1 = .ok imageUrl ∧ data.image = imageUrl) ∧
    data.name = st.formData.name ++ utf16 " 的名片" ∧
    data.description = st.formData.description ∧
    data.creator = env.account ∧
    data.external_url = env.origin ∧
    data.attributes =
      [ { trait_type := utf16 "创建者", value := st.formData.name },
        { trait_type := utf16 "创建时间", value := env.now },
        { trait_type := utf16 "类型", value := utf16 "NFT名片" } ] ∧
    data.attributes.length = 3 := by
  obtain ⟨imageUrl, hi, hdata, _⟩ := handleSubmit_json_upload env st hn hd data r h
  subst hdata
  exact ⟨⟨imageUrl, hi, rfl⟩, rfl, rfl, rfl, rfl, rfl, rfl⟩

/-- C9, amended, at the form of `Ada L` with an avatar, on a store that accepts
every upload under the path `Qm1`. -/
theorem handleSubmit_metadata_witness :
    trim avatarForm.formData.name ≠ [] ∧ trim avatarForm.formData.description ≠ [] ∧
    Effect.ipfsAdd
        (.json (buildMetadata exampleEnv avatarForm.formData (utf16 "https://ipfs.io/ipfs/Qm1")))
        (some (utf16 "Qm1")) ∈ (handleSubmit exampleEnv avatarForm).2 ∧
    (buildMetadata exampleEnv avatarForm.formData (utf16 "https://ipfs.io/ipfs/Qm1")).name
      = utf16 "Ada L" ++ utf16 " 的名片" ∧
    (buildMetadata exampleEnv avatarForm.formData (utf16 "https://ipfs.io/ipfs/Qm1")).description
      = utf16 "Engineer" :=
  ⟨by decide, by decide, by decide,
   (handleSubmit_metadata exampleEnv avatarForm (by decide) (by decide)
      (buildMetadata exampleEnv avatarForm.formData (utf16 "https://ipfs.io/ipfs/Qm1"))
      (some (utf16 "Qm1")) (by decide)).2.1,
   (handleSubmit_metadata exampleEnv avatarForm (by decide) (by decide)
      (buildMetadata exampleEnv avatarForm.formData (utf16 "https://ipfs.io/ipfs/Qm1"))
      (some (utf16 "Qm1")) (by decide)).2.2.1⟩

/-! ## Round trip (C10) -/

theorem ne_nil_of_trim_ne_nil (s : JSString) (h : trim s ≠ []) : s ≠ [] := by
  intro hs
  subst hs
  exact h rfl

theorem gateway_append_ne_nil (x : JSString) : gatewayBase ++ x ≠ [] := by
  rw [gatewayBase_eq]
  simp

theorem prop_parseStringify (data : Metadata) :
    (parseStringify data).prop (utf16 "name") = some (.str data.name) ∧
    (parseStringify data).prop (utf16 "description") = some (.str data.description) ∧
    (parseStringify data).prop (utf16 "image") = some (.str data.image) ∧
    (parseStringify data).prop (utf16 "attributes")
      = some (.arr (data.attributes.map attributeJson)) :=
  ⟨rfl, rfl, rfl, rfl⟩

theorem childText_orElse_str (s b : JSString) :
    childText (orElse (some (.str s)) b) = .ok (if truthy s then s else b) := by
  unfold orElse
  cases s with
  | nil => rfl
  | cons c cs => rfl

theorem attributeCells_attributeJson (attrs : List Attribute) :
    attributeCells (attrs.map attributeJson) =
      .ok (attrs.map fun a => (some (.str a.trait_type), some (.str a.value))) := by
  induction attrs with
  | nil => rfl
  | cons a rest ih =>
    simp only [List.map_cons, attributeJson] at ih ⊢
    unfold attributeCells
    simp only [attributeJson] at ih ⊢
    rw [ih]
    rfl

theorem gridRows_str (attrs : List Attribute) :
    gridRows (attrs.map fun a => (some (.str a.trait_type), some (.str a.value))) =
      .ok (attrs.map fun a => (a.trait_type, a.value)) := by
  induction attrs with
  | nil => rfl
  | cons a rest ih =>
    simp only [List.map_cons]
    unfold gridRows
    rw [ih]
    rfl

/-- The card body of metadata that parses back to an uploaded record. -/
theorem renderCard_parseStringify (nft : NFT) (showOwner : Bool) (data : Metadata) :
    renderCard nft showOwner (parseStringify data) =
      .ok (View.card nft.tokenId (if truthy data.image then some (imageSrc data.image) else none)
        (if truthy data.name then data.name else nft.name ++ utf16 " 的名片")
        (if truthy data.description then data.description else nft.description) nft.name
        (((ownerShown showOwner nft).filter fun o => decide (o ≠ nft.creator)).map
          fun o => formatAddress (some o))
        nft.createdAt (.grid (data.attributes.map fun a => (a.trait_type, a.value)))) := by
  obtain ⟨h1, h2, h3, h4⟩ := prop_parseStringify data
  have himg : renderedImage (parseStringify data) =
      .ok (if truthy data.image then some (imageSrc data.image) else none) := by
    unfold renderedImage
    rw [h3]
    cases hi : data.image with
    | nil => rfl
    | cons c cs => rfl
  have hel : attributesElement (parseStringify data) =
      .ok (.grid (data.attributes.map fun a => (some (.str a.trait_type), some (.str a.value)))) := by
    unfold attributesElement
    rw [h4]
    simp only [Json.truthy, if_true]
    rw [attributeCells_attributeJson]
  unfold renderCard
  rw [himg, hel]
  simp only [cardTitle, cardDescription, h1, h2, childText_orElse_str, attributesView,
    gridRows_str]

/-- Round trip, for the inputs that reach the metadata upload: for every form
with a non-blank name and description, when `handleSubmit` has uploaded the
metadata `data` and the store returned `path`, and the gateway serves at the
locator of `path` a body that parses back to `data`, then for every card whose
`tokenURI` is that locator `loadMetadata` ends with no error, `loading` false
and the parsed metadata stored, and the card body is rendered, with the bio of
the form as its description. -/
theorem publish_resolve_roundtrip (env : MintEnv) (st : FormState)
    (hn : trim st.formData.name ≠ []) (hd : trim st.formData.description ≠ [])
    (data : Metadata) (path : JSString)
    (hup : Effect.ipfsAdd (.json data) (some path) ∈ (handleSubmit env st).2)
    (fetch : JSString → Except JSError Response)
    (hfetch : loadYields (fetch (gatewayBase ++ path)) (parseStringify data))
    (nft : NFT) (hnft : nft.tokenURI = gatewayBase ++ path)
    (cst : CardState) (showOwner : Bool) :
    (uploadToIPFS env data).1 = .ok nft.tokenURI ∧
    (loadMetadata fetch nft cst).1.error = none ∧
    (loadMetadata fetch nft cst).1.loading = false ∧
    (loadMetadata fetch nft cst).1.metadata = parseStringify data ∧
    cardDescription nft (loadMetadata fetch nft cst).1.metadata
      = .ok st.formData.description ∧
    render nft showOwner (loadMetadata fetch nft cst).1 =
      .ok (View.card nft.tokenId (if truthy data.image then some (imageSrc data.image) else none)
        (st.formData.name ++ utf16 " 的名片") st.formData.description nft.name
        (((ownerShown showOwner nft).filter fun o => decide (o ≠ nft.creator)).map
          fun o => formatAddress (some o))
        nft.createdAt (.grid (data.attributes.map fun a => (a.trait_type, a.value)))) := by
  obtain ⟨imageUrl, _, hdata, hr⟩ := handleSubmit_json_upload env st hn hd data (some path) hup
  have hne : nft.tokenURI ≠ [] := by
    rw [hnft]
    exact gateway_append_ne_nil path
  have hnorm : normalizeLocator nft.tokenURI = gatewayBase ++ path := by
    rw [hnft, normalizeLocator_eq, not_startsWith_gateway]
    simp
  have hload := loadMetadata_of_yields fetch nft cst hne (parseStringify data)
    (by rw [hnorm]; exact hfetch)
  have hdesc : data.description = st.formData.description := by
    rw [hdata]
    rfl
  have hname : data.name = st.formData.name ++ utf16 " 的名片" := by
    rw [hdata]
    rfl
  have htruthy : truthy st.formData.description = true :=
    truthy_of_ne_nil _ (ne_nil_of_trim_ne_nil _ hd)
  have htn : truthy (st.formData.name ++ utf16 " 的名片") = true := by
    apply truthy_of_ne_nil
    intro h
    have h2 := (List.append_eq_nil.mp h).2
    exact absurd h2 (by decide)
  have hcd : cardDescription nft (parseStringify data) = .ok st.formData.description := by
    unfold cardDescription
    rw [(prop_parseStringify data).2.1, childText_orElse_str, hdesc, htruthy]
    rfl
  have hupload : (uploadToIPFS env data).1 = .ok nft.tokenURI := by
    unfold uploadToIPFS
    cases hu : env.ipfsAdd (.json data) with
    | ok p =>
      rw [hu] at hr
      simp [Except.toOption] at hr
      rw [hnft, hr]
    | error e =>
      rw [hu] at hr
      simp [Except.toOption] at hr
  refine ⟨hupload, ?_, ?_, ?_, ?_, ?_⟩
  · rw [hload]
  · rw [hload]
  · rw [hload]
  · rw [hload]
    exact hcd
  · rw [hload]
    simp only [render, Bool.false_eq_true, if_false]
    rw [renderCard_parseStringify, hname, hdesc, htn, htruthy]
    rfl

/-- The round trip at the form of `Ada L` with an avatar, published under the
path `Qm1` and read back through a gateway that serves what was uploaded. -/
theorem publish_resolve_roundtrip_witness :
    trim avatarForm.formData.name ≠ [] ∧ trim avatarForm.formData.description ≠ [] ∧
    Effect.ipfsAdd
        (.json (buildMetadata exampleEnv avatarForm.formData (utf16 "https://ipfs.io/ipfs/Qm1")))
        (some (utf16 "Qm1")) ∈ (handleSubmit exampleEnv avatarForm).2 ∧
    (loadMetadata reachableFetch (adaNft (utf16 "https://ipfs.io/ipfs/Qm1"))
        CardState.initial).1.error = none ∧
    cardDescription (adaNft (utf16 "https://ipfs.io/ipfs/Qm1"))
        (loadMetadata reachableFetch (adaNft (utf16 "https://ipfs.io/ipfs/Qm1"))
          CardState.initial).1.metadata = .ok (utf16 "Engineer") :=
  ⟨by decide, by decide, by decide,
   (publish_resolve_roundtrip exampleEnv avatarForm (by decide) (by decide)
      (buildMetadata exampleEnv avatarForm.formData (utf16 "https://ipfs.io/ipfs/Qm1"))
      (utf16 "Qm1") (by decide) reachableFetch ⟨_, rfl, rfl, rfl⟩
      (adaNft (utf16 "https://ipfs.io/ipfs/Qm1")) (by decide) CardState.initial false).2.1,
   (publish_resolve_roundtrip exampleEnv avatarForm (by decide) (by decide)
      (buildMetadata exampleEnv avatarForm.formData (utf16 "https://ipfs.io/ipfs/Qm1"))
      (utf16 "Qm1") (by decide) reachableFetch ⟨_, rfl, rfl, rfl⟩
      (adaNft (utf16 "https://ipfs.io/ipfs/Qm1")) (by decide) CardState.initial false).2.2.2.2.1⟩

theorem tryBlock_liMing :
    tryBlock exampleEnv liMingForm.formData = (.error .invalidCharacter, []) := by
  have hi : initials refToUpperCase (utf16 "李明") = [0x674E] := by decide
  have hg : generateDefaultAvatar refToUpperCase (utf16 "李明") = .error .invalidCharacter := by
    rw [generateDefaultAvatar_eq, hi]
    rfl
  unfold tryBlock imageStep
  simp only [liMingForm, exampleEnv]
  rw [hg]

/-- C10, at the valid form of 李明 without an avatar, on a store that accepts
every upload: `handleSubmit` publishes nothing, so that there is no locator to
resolve and no card showing the bio; its only effect is the alert of the
failure, it uploads no metadata and mints nothing, and the form keeps its
data. -/
theorem roundtrip_publishes_nothing_on_cjk :
    trim liMingForm.formData.name ≠ [] ∧ trim liMingForm.formData.description ≠ [] ∧
    (∀ p, exampleEnv.ipfsAdd p = .ok (utf16 "Qm1")) ∧
    (handleSubmit exampleEnv liMingForm).2 =
      [Effect.alert (utf16 "铸造失败: Invalid character")] ∧
    (∀ data r, Effect.ipfsAdd (.json data) r ∉ (handleSubmit exampleEnv liMingForm).2) ∧
    (∀ e ∈ (handleSubmit exampleEnv liMingForm).2, e.isNetworkCall = false) ∧
    (handleSubmit exampleEnv liMingForm).1 = liMingForm := by
  have ht : handleSubmit exampleEnv liMingForm =
      (liMingForm, [Effect.alert (utf16 "铸造失败: Invalid character")]) := by
    rw [trim_valid_branch exampleEnv liMingForm (by decide) (by decide), tryBlock_liMing]
    decide
  refine ⟨by decide, by decide, fun _ => rfl, ?_, ?_, ?_, ?_⟩
  · rw [ht]
  · intro data r
    rw [ht]
    simp
  · intro e he
    rw [ht] at he
    simp at he
    subst he
    rfl
  · rw [ht]

/-! ## Merge policy (C11) -/

theorem loadMetadata_error_cases (fetch : JSString → Except JSError Response) (nft : NFT)
    (st : CardState) :
    (loadMetadata fetch nft st).1.loading = false ∧
    ((loadMetadata fetch nft st).1.error = none ∨
      (loadMetadata fetch nft st).1.error = some (utf16 "加载失败")) := by
  by_cases h : nft.tokenURI = []
  · have he : loadMetadata fetch nft st = ({ st with loading := false, error := none }, []) := by
      unfold loadMetadata
      rw [h]
      rfl
    rw [he]
    exact ⟨rfl, Or.inl rfl⟩
  · rcases loadFails_or_yields (fetch (normalizeLocator nft.tokenURI)) with hf | ⟨data, hy⟩
    · rw [loadMetadata_of_fails fetch nft st h hf]
      exact ⟨rfl, Or.inr rfl⟩
    · rw [loadMetadata_of_yields fetch nft st h data hy]
      exact ⟨rfl, Or.inl rfl⟩

theorem ownerLine_error (nft : NFT) (showOwner : Bool) :
    ((ownerShown showOwner nft).map fun o => formatAddress (some o)) =
      match nft.owner with
      | some o =>
        if showOwner = true ∧ o ≠ [] then
          some (o.take 6 ++ utf16 "..." ++ o.drop (o.length - 4))
        else none
      | none => none := by
  unfold ownerShown
  cases nft.owner with
  | none => rfl
  | some o =>
    cases showOwner with
    | false => simp
    | true =>
      cases o with
      | nil => simp [truthy]
      | cons c cs => simp [truthy, formatAddress]

theorem ownerLine_card (nft : NFT) (showOwner : Bool) :
    (((ownerShown showOwner nft).filter fun o => decide (o ≠ nft.creator)).map
        fun o => formatAddress (some o)) =
      match nft.owner with
      | some o =>
        if showOwner = true ∧ o ≠ [] ∧ o ≠ nft.creator then
          some (o.take 6 ++ utf16 "..." ++ o.drop (o.length - 4))
        else none
      | none => none := by
  unfold ownerShown
  cases nft.owner with
  | none => rfl
  | some o =>
    cases showOwner with
    | false => simp
    | true =>
      cases o with
      | nil => simp [truthy]
      | cons c cs =>
        by_cases hc : c :: cs = nft.creator
        · rw [← hc]
          simp [truthy, Option.filter]
        · simp [truthy, hc, Option.filter, formatAddress]

theorem renderCard_ok (nft : NFT) (showOwner : Bool) (metadata : Json) (v : View)
    (h : renderCard nft showOwner metadata = .ok v) :
    ∃ image title description attributes,
      v = View.card nft.tokenId image title description nft.name
        (((ownerShown showOwner nft).filter fun o => decide (o ≠ nft.creator)).map
          fun o => formatAddress (some o))
        nft.createdAt attributes ∧
      cardTitle nft metadata = .ok title ∧ cardDescription nft metadata = .ok description := by
  unfold renderCard at h
  cases h1 : renderedImage metadata with
  | error e => simp [h1] at h
  | ok image =>
    cases h2 : attributesElement metadata with
    | error e => simp [h1, h2] at h
    | ok element =>
      cases h3 : cardTitle nft metadata with
      | error e => simp [h1, h2, h3] at h
      | ok title =>
        cases h4 : cardDescription nft metadata with
        | error e => simp [h1, h2, h3, h4] at h
        | ok description =>
          cases h5 : attributesView element with
          | error e => simp [h1, h2, h3, h4, h5] at h
          | ok attributes =>
            simp only [h1, h2, h3, h4, h5, Except.ok.injEq] at h
            exact ⟨image, title, description, attributes, h.symm, rfl, rfl⟩

/-- The merge policy wherever the card renders: for every on-chain record `nft`
and every state `r` in which `loadMetadata` settles, a degraded card renders
the error view with the token id, name, description, owner and date of `nft`;
otherwise, when the render does not throw, the view is the card body with the
token id, the name as creator line and the date of `nft`, and the owner line is
the shortened `nft.owner` when owners are shown and the owner is set and is not
the creator; the title and description are the name and description of the
metadata when these are non-empty strings, and the on-chain name followed by
` 的名片` and the on-chain description when they are missing or falsy. -/
theorem merge_policy (fetch : JSString → Except JSError Response) (nft : NFT) (st : CardState)
    (showOwner : Bool) (r : CardState) (hr : r = (loadMetadata fetch nft st).1) :
    (r.error = none ∨ r.error = some (utf16 "加载失败")) ∧
    (r.error = some (utf16 "加载失败") →
      render nft showOwner r =
        .ok (View.error nft.tokenId (utf16 "加载失败") nft.name nft.description
          (match nft.owner with
            | some o =>
              if showOwner = true ∧ o ≠ [] then
                some (o.take 6 ++ utf16 "..." ++ o.drop (o.length - 4))
              else none
            | none => none)
          nft.createdAt)) ∧
    (∀ v, r.error = none → render nft showOwner r = .ok v →
      ∃ image title description attributes,
        v = View.card nft.tokenId image title description nft.name
          (match nft.owner with
            | some o =>
              if showOwner = true ∧ o ≠ [] ∧ o ≠ nft.creator then
                some (o.take 6 ++ utf16 "..." ++ o.drop (o.length - 4))
              else none
            | none => none)
          nft.createdAt attributes ∧
        cardTitle nft r.metadata = .ok title ∧
        cardDescription nft r.metadata = .ok description) ∧
    (∀ n, r.metadata.prop (utf16 "name") = some (.str n) → n ≠ [] →
      cardTitle nft r.metadata = .ok n) ∧
    (∀ d, r.metadata.prop (utf16 "description") = some (.str d) → d ≠ [] →
      cardDescription nft r.metadata = .ok d) ∧
    ((r.metadata.prop (utf16 "name") = none ∨
        ∃ x, r.metadata.prop (utf16 "name") = some x ∧ x.truthy = false) →
      cardTitle nft r.metadata = .ok (nft.name ++ utf16 " 的名片")) ∧
    ((r.metadata.prop (utf16 "description") = none ∨
        ∃ x, r.metadata.prop (utf16 "description") = some x ∧ x.truthy = false) →
      cardDescription nft r.metadata = .ok nft.description) := by
  obtain ⟨hl, he⟩ := loadMetadata_error_cases fetch nft st
  rw [← hr] at hl he
  have ht : truthy (utf16 "加载失败") = true := by decide
  refine ⟨he, ?_, ?_, ?_, ?_, ?_, ?_⟩
  · intro h
    rw [← ownerLine_error]
    simp [render, hl, h, ht]
  · intro v h hv
    rw [← ownerLine_card]
    have hv2 : renderCard nft showOwner r.metadata = .ok v := by
      simpa [render, hl, h] using hv
    exact renderCard_ok nft showOwner r.metadata v hv2
  · intro n hn hne
    unfold cardTitle
    rw [hn, childText_orElse_str, truthy_of_ne_nil n hne]
    rfl
  · intro d hd hne
    unfold cardDescription
    rw [hd, childText_orElse_str, truthy_of_ne_nil d hne]
    rfl
  · rintro (h | ⟨x, hx, hf⟩)
    · unfold cardTitle
      rw [h]
      rfl
    · unfold cardTitle
      rw [hx]
      simp only [orElse, hf]
      rfl
  · rintro (h | ⟨x, hx, hf⟩)
    · unfold cardDescription
      rw [h]
      rfl
    · unfold cardDescription
      rw [hx]
      simp only [orElse, hf]
      rfl

/-- The merge policy at the card of `Ada L`, owned by another account, behind a
gateway whose metadata disagrees with the on-chain record: title, description
and attributes come from the metadata; the token id, creator line, owner line
and date from the record. -/
theorem merge_policy_witness :
    render ownedNft true (loadMetadata richFetch ownedNft CardState.initial).1 =
      .ok (View.card (utf16 "0") none (utf16 "Countess of Lovelace") (utf16 "Analyst")
        (utf16 "Ada L") (some (utf16 "0xB0B0...1234")) (some 1704067200000)
        (.grid [ (utf16 "创建者", utf16 "Mallory") ])) ∧
    cardTitle ownedNft (loadMetadata richFetch ownedNft CardState.initial).1.metadata
      = .ok (utf16 "Countess of Lovelace") :=
  ⟨rfl,
   (merge_policy richFetch ownedNft CardState.initial true _ rfl).2.2.2.1
      (utf16 "Countess of Lovelace") rfl (by decide)⟩

/-- C11, at metadata whose `image` is the number 5, served with status 200:
`loadMetadata` settles with no error and the metadata stored, and the title
expression alone would give the name `X` of the metadata, but the render throws
a `TypeError` at `metadata.image.startsWith`, so that no title, description,
token id, creator, owner or date is shown. -/
theorem render_throws_on_ill_typed_image :
    (loadMetadata illTypedFetch (adaNft (utf16 "ipfs://Qm1")) CardState.initial).1.error
      = none ∧
    (loadMetadata illTypedFetch (adaNft (utf16 "ipfs://Qm1")) CardState.initial).1.loading
      = false ∧
    (loadMetadata illTypedFetch (adaNft (utf16 "ipfs://Qm1")) CardState.initial).1.metadata
      = illTypedMetadata ∧
    cardTitle (adaNft (utf16 "ipfs://Qm1")) illTypedMetadata = .ok (utf16 "X") ∧
    renderedImage illTypedMetadata = .error .typeError ∧
    (∀ showOwner, render (adaNft (utf16 "ipfs://Qm1")) showOwner
        (loadMetadata illTypedFetch (adaNft (utf16 "ipfs://Qm1")) CardState.initial).1
      = .error .typeError) := by
  refine ⟨rfl, rfl, rfl, rfl, rfl, ?_⟩
  intro showOwner
  cases showOwner <;> rfl

/-! ## The background colour (C12) -/

/-- C12: the palette has six colours; for every name the background colour is
the palette entry at index `name.length % 6`, an index inside the palette, so
that the colour is never `undefined` and is the text interpolated in the SVG;
and two names of the same length get the same colour. -/
theorem bgColor_spec (name : JSString) :
    colors.length = 6 ∧
    name.length % 6 < colors.length ∧
    bgColor name = colors.get? (name.length % 6) ∧
    (∃ c, c ∈ colors ∧ bgColor name = some c ∧ interpolate (bgColor name) = c) ∧
    bgColor name ≠ none ∧
    (∀ other : JSString, other.length = name.length → bgColor other = bgColor name) := by
  have hlen : colors.length = 6 := by decide
  have hlt : name.length % 6 < colors.length := by
    rw [hlen]
    exact Nat.mod_lt _ (by decide)
  have hb : bgColor name = colors.get? (name.length % 6) := by
    unfold bgColor
    rw [hlen]
  have hsome : bgColor name = some (colors.get ⟨name.length % 6, hlt⟩) := by
    rw [hb]
    exact List.get?_eq_get hlt
  refine ⟨hlen, hlt, hb, ⟨colors.get ⟨name.length % 6, hlt⟩, List.get_mem _ _ _, hsome, ?_⟩,
    ?_, ?_⟩
  · rw [hsome]
    rfl
  · rw [hsome]
    simp
  · intro other ho
    unfold bgColor
    rw [ho]

/-- C12 at the names `Ada L` and `Bob M`, both of length five: the colour is
the sixth entry of the palette, `#DDA0DD`. -/
theorem bgColor_spec_witness :
    (utf16 "Bob M").length = (utf16 "Ada L").length ∧
    bgColor (utf16 "Bob M") = bgColor (utf16 "Ada L") ∧
    bgColor (utf16 "Ada L") = some (utf16 "#DDA0DD") :=
  ⟨by decide, (bgColor_spec (utf16 "Ada L")).2.2.2.2.2 (utf16 "Bob M") (by decide), by decide⟩

end NFTCard
